import Mathlib

/-!
Verification development for the Jira-to-TestRail Gherkin sync tool.

The TypeScript sources are shallowly embedded: strings are lists of
characters, the JavaScript regular expressions driving the Gherkin parser
are embedded through a small backtracking matcher with ECMAScript
semantics (greedy and lazy quantifiers, alternation trying the left
branch first, negative and positive lookahead, capture groups), and the
stateful sync orchestrator is embedded as explicit state passing over a
model of the TestRail store, with an oracle injecting per-call failures.
-/

namespace JiraToTestRail

abbrev Str := List Char

/-- ASCII lowercasing, matching `String.prototype.toLowerCase` on the
ASCII range used by the tool. -/
def jsLower (c : Char) : Char :=
  if 'A' ≤ c ∧ c ≤ 'Z' then Char.ofNat (c.toNat + 32) else c

/-- JavaScript `\s` on the ASCII range: space, tab, newline, carriage
return, vertical tab, form feed. -/
def isWs (c : Char) : Bool :=
  c = ' ' ∨ c = '\t' ∨ c = '\n' ∨ c = '\r' ∨ c = Char.ofNat 11 ∨ c = Char.ofNat 12

def isDigitCh (c : Char) : Bool := '0' ≤ c ∧ c ≤ '9'

/-- `String.prototype.trim`. -/
def trim (s : Str) : Str :=
  ((s.dropWhile isWs).reverse.dropWhile isWs).reverse

/-- `split('\n')`: splits on every newline, keeping empty pieces. -/
def splitNL : Str → List Str
  | [] => [[]]
  | c :: rest =>
    let r := splitNL rest
    if c = '\n' then [] :: r
    else
      match r with
      | [] => [[c]]
      | h :: t => (c :: h) :: t

/-- `join('\n')`. -/
def joinNL : List Str → Str
  | [] => []
  | [s] => s
  | s :: rest => s ++ '\n' :: joinNL rest

/-- `replace(/\n+/g, ' ')`: each maximal run of newlines becomes one
space.  The boolean flag records whether the previous character was a
newline. -/
def collapseNLAux : Bool → Str → Str
  | _, [] => []
  | inRun, c :: rest =>
    if c = '\n' then
      if inRun then collapseNLAux true rest else ' ' :: collapseNLAux true rest
    else c :: collapseNLAux false rest

def collapseNL (s : Str) : Str := collapseNLAux false s

/-- `replace(/\s+/g, ' ')`: each maximal whitespace run becomes one
space. -/
def collapseWsAux : Bool → Str → Str
  | _, [] => []
  | inRun, c :: rest =>
    if isWs c then
      if inRun then collapseWsAux true rest else ' ' :: collapseWsAux true rest
    else c :: collapseWsAux false rest

def collapseWs (s : Str) : Str := collapseWsAux false s

/-- `String.prototype.includes`: substring containment — `needle` is a
prefix of some suffix of `hay`. -/
def jsIncludesAux (needle : Str) : Str → Bool
  | [] => needle.isEmpty
  | c :: rest => needle.isPrefixOf (c :: rest) || jsIncludesAux needle rest

def jsIncludes (hay needle : Str) : Bool :=
  jsIncludesAux needle hay

/-- Decimal rendering of a natural number, as JavaScript template
interpolation of a number produces. -/
def natToStr (n : Nat) : Str :=
  (Nat.toDigits 10 n)

/-- `title.toLowerCase().trim()` — the normalization used for the title
lookup and the scenario-title set. -/
def normKey (s : Str) : Str := trim (s.map jsLower)

/-- `name.toLowerCase().trim().replace(/\s+/g, ' ')` — the normalization
`findSuiteByName` applies to suite names. -/
def normSuite (s : Str) : Str := collapseWs (trim (s.map jsLower))

/-! ## A backtracking regular-expression engine with ECMAScript semantics

`star` is greedy (tries another iteration before yielding), `starL` is
lazy (yields before iterating); iterations that consume nothing are cut
off, as ECMAScript does.  Alternation tries the left branch first.
Capture groups record the consumed substring; backtracking restores the
capture state because failed branches simply never propagate theirs. -/

inductive RE where
  | cls (p : Char → Bool)
  | eps
  | seq (a b : RE)
  | alt (a b : RE)
  | star (a : RE)
  | starL (a : RE)
  | opt (a : RE)
  | group (i : Nat) (a : RE)
  | nla (a : RE)
  | la (a : RE)
  | eos

abbrev Caps := List (Nat × Str)

def setCap (caps : Caps) (i : Nat) (v : Str) : Caps :=
  match caps with
  | [] => [(i, v)]
  | (j, w) :: rest => if j = i then (i, v) :: rest else (j, w) :: setCap rest i v

def getCap (caps : Caps) (i : Nat) : Option Str :=
  (caps.find? (fun p => p.1 = i)).map (·.2)

/-- One fuel level of the matcher, in continuation-passing style:
structural recursion over the pattern, with `next` handling quantifier
iterations at the next-lower fuel level. -/
def reMGo (next : RE → Str → Caps → (Str → Caps → Option (Str × Caps)) → Option (Str × Caps)) :
    RE → Str → Caps → (Str → Caps → Option (Str × Caps)) → Option (Str × Caps)
  | .cls p, s, caps, k =>
    (match s with
     | [] => none
     | c :: rest => if p c then k rest caps else none)
  | .eps, s, caps, k => k s caps
  | .seq a b, s, caps, k => reMGo next a s caps (fun s' c' => reMGo next b s' c' k)
  | .alt a b, s, caps, k =>
    (match reMGo next a s caps k with
     | some r => some r
     | none => reMGo next b s caps k)
  | .star a, s, caps, k =>
    (match next a s caps (fun s' c' =>
        if s'.length = s.length then none
        else next (.star a) s' c' k) with
     | some r => some r
     | none => k s caps)
  | .starL a, s, caps, k =>
    (match k s caps with
     | some r => some r
     | none =>
       next a s caps (fun s' c' =>
         if s'.length = s.length then none
         else next (.starL a) s' c' k))
  | .opt a, s, caps, k =>
    (match reMGo next a s caps k with
     | some r => some r
     | none => k s caps)
  | .group i a, s, caps, k =>
    reMGo next a s caps (fun s' c' => k s' (setCap c' i (s.take (s.length - s'.length))))
  | .nla a, s, caps, k =>
    (match reMGo next a s caps (fun s' c' => some (s', c')) with
     | some _ => none
     | none => k s caps)
  | .la a, s, caps, k =>
    (match reMGo next a s caps (fun s' c' => some (s', c')) with
     | some _ => k s caps
     | none => none)
  | .eos, s, caps, k => if s.isEmpty then k s caps else none

/-- The matcher.  `fuel` bounds quantifier nesting of iterations; every
quantified subpattern in this development consumes at least one
character per iteration, so `s.length + 1` fuel is always enough.  At
fuel 0 a quantifier attempts no further iteration. -/
def reM : Nat → RE → Str → Caps → (Str → Caps → Option (Str × Caps)) → Option (Str × Caps)
  | 0 => reMGo (fun _ _ _ _ => none)
  | fuel + 1 => reMGo (reM fuel)

/-- Attempt an anchored match of `r` at the start of `s`; returns the
remaining input and the captures of the first (ECMAScript-ordered)
success. -/
def reMatchAt (r : RE) (s : Str) : Option (Str × Caps) :=
  reM (s.length + 1) r s [] (fun rest caps => some (rest, caps))

/-- `regex.test` for a `^`-anchored pattern. -/
def reTestAt (r : RE) (s : Str) : Bool :=
  (reMatchAt r s).isSome

/-- `replace(/^pat/, '')`: if the anchored pattern matches, drop the
matched prefix, else return the string unchanged. -/
def reStripAt (r : RE) (s : Str) : Str :=
  match reMatchAt r s with
  | some (rest, _) => rest
  | none => s

/-- Leftmost match search from index `i` (the `lastIndex` scan of a
global regex): returns the match's start index, end index and captures. -/
def reFindFromAux (r : RE) (s : Str) : Nat → Nat → Option (Nat × Nat × Caps)
  | 0, _ => none
  | fuel + 1, i =>
    if i ≤ s.length then
      match reMatchAt r (s.drop i) with
      | some (rest, caps) => some (i, s.length - rest.length, caps)
      | none =>
        if i = s.length then none else reFindFromAux r s fuel (i + 1)
    else none

def reFindFrom (r : RE) (s : Str) (i : Nat) : Option (Nat × Nat × Caps) :=
  reFindFromAux r s (s.length + 1 - i) i

/-- All matches of a global regex, in `while ((m = re.exec(s)))` order:
each search resumes at the previous match's end index.  Matches of the
patterns in this development are never empty; `fuel` makes the loop
structurally terminating regardless. -/
def reExecAllAux (r : RE) (s : Str) (fuel i : Nat) : List Caps :=
  match fuel with
  | 0 => []
  | fuel' + 1 =>
    match reFindFrom r s i with
    | none => []
    | some (_, stop, caps) =>
      if stop ≤ i then [caps]
      else caps :: reExecAllAux r s fuel' stop

def reExecAll (r : RE) (s : Str) : List Caps :=
  reExecAllAux r s (s.length + 1) 0

/-! ### Pattern building blocks -/

/-- A case-insensitive literal, as all the parser's regexes carry the
`i` flag. -/
def ciStr (w : Str) : RE :=
  w.foldr (fun c acc => .seq (.cls (fun d => jsLower d = jsLower c)) acc) .eps

/-- A case-sensitive literal (the fallback step splitter has no `i`
flag). -/
def csStr (w : Str) : RE :=
  w.foldr (fun c acc => .seq (.cls (fun d => d = c)) acc) .eps

def wsCls : RE := .cls isWs
def wsStar : RE := .star wsCls
def wsPlus : RE := .seq wsCls wsStar
def notNL : RE := .cls (fun c => ¬ (c = '\n'))
def nlCh : RE := .cls (fun c => c = '\n')
def anyCh : RE := .cls (fun _ => true)
def digitPlus : RE := .seq (.cls isDigitCh) (.star (.cls isDigitCh))

/-- `(?:Given|When|Then|And|But)`, case-insensitive, in source order. -/
def kwAlt : RE :=
  .alt (ciStr "given".data)
    (.alt (ciStr "when".data)
      (.alt (ciStr "then".data)
        (.alt (ciStr "and".data) (ciStr "but".data))))

/-! ## The Gherkin parser (`src/parser/gherkinParser.ts`)

`parseScenarios` runs the `scenarioPattern` global regex

`Scenario\s*(\d+)?\s*:?\s*((?:[^\n]*(?:\n(?!\s*(?:Given|When|Then|And|But|Scenario))[^\n]*)*))(?:\n\s*)*((?:Given|When|Then|And|But)[^\n]*(?:\n(?!Scenario)[^\n]*)*)`

with flags `gi`, and falls back to `parseFallbackScenarios`, which runs

`When\s+(.+?)(?:\n(?:And|But)\s+(.+?))*\nThen\s+(.+?)(?:\n(?:And|But)\s+(.+?))*(?=\n\n|\nWhen\s+|$)`

with flags `gis`, when the primary pass yields nothing. -/

/-- `(?:Given|When|Then|And|But|Scenario)` inside the title's negative
lookahead. -/
def kwOrScenario : RE := .alt kwAlt (ciStr "scenario".data)

/-- Title region: `((?:[^\n]*(?:\n(?!\s*(?:Given|When|Then|And|But|Scenario))[^\n]*)*))`
as capture group 2. -/
def titleRE : RE :=
  .group 2 (.seq (.star notNL)
    (.star (.seq nlCh (.seq (.nla (.seq wsStar kwOrScenario)) (.star notNL)))))

/-- `(?:\n\s*)*` between title region and steps block. -/
def gapRE : RE := .star (.seq nlCh wsStar)

/-- Steps block: `((?:Given|When|Then|And|But)[^\n]*(?:\n(?!Scenario)[^\n]*)*)`
as capture group 3. -/
def stepsBlockRE : RE :=
  .group 3 (.seq kwAlt (.seq (.star notNL)
    (.star (.seq nlCh (.seq (.nla (ciStr "scenario".data)) (.star notNL))))))

/-- The primary `scenarioPattern` regex. -/
def primaryRE : RE :=
  .seq (ciStr "scenario".data)
    (.seq wsStar
      (.seq (.opt (.group 1 digitPlus))
        (.seq wsStar
          (.seq (.opt (.cls (fun c => c = ':')))
            (.seq wsStar
              (.seq titleRE (.seq gapRE stepsBlockRE)))))))

/-- `.+?` under the `s` (dotAll) flag: one character, then a lazy star. -/
def lazyDotPlus : RE := .seq anyCh (.starL anyCh)

/-- `(?:And|But)` case-insensitive. -/
def andButCi : RE := .alt (ciStr "and".data) (ciStr "but".data)

/-- `(?:\n(?:And|But)\s+(.+?))*` with the inner capture numbered `g`. -/
def contStar (g : Nat) : RE :=
  .star (.seq nlCh (.seq andButCi (.seq wsPlus (.group g lazyDotPlus))))

/-- `(?=\n\n|\nWhen\s+|$)` terminating a fallback block. -/
def fbLookahead : RE :=
  .la (.alt (.seq nlCh nlCh)
    (.alt (.seq nlCh (.seq (ciStr "when".data) wsPlus)) .eos))

/-- The fallback `whenThenPattern` regex. -/
def fallbackRE : RE :=
  .seq (ciStr "when".data)
    (.seq wsPlus
      (.seq (.group 1 lazyDotPlus)
        (.seq (contStar 2)
          (.seq nlCh
            (.seq (ciStr "then".data)
              (.seq wsPlus
                (.seq (.group 3 lazyDotPlus)
                  (.seq (contStar 4) fbLookahead))))))))

/-- `/\n(?:And|But)\s+/` — the case-sensitive splitter applied to the
fallback's continuation captures. -/
def splitAndButRE : RE :=
  .seq nlCh (.seq (.alt (csStr "And".data) (csStr "But".data)) wsPlus)

/-- `/^(Given|When|Then|And|But)\s+/i` — the step-line test, also used to
strip a leading keyword. -/
def stepLineRE : RE := .seq kwAlt wsPlus

/-- `/^then\s+/i`. -/
def thenRE : RE := .seq (ciStr "then".data) wsPlus

/-- `/^and\s+then\s+/i`. -/
def andThenRE : RE :=
  .seq (ciStr "and".data) (.seq wsPlus (.seq (ciStr "then".data) wsPlus))

structure ParsedScenario where
  name : Str
  steps : List Str
  expectedResult : Str
  deriving Repr, DecidableEq

/-- `GherkinParser.extractSteps`: split the block on newlines, trim each
line, keep the lines that match the step-line regex. -/
def extractSteps (stepsBlock : Str) : List Str :=
  (splitNL stepsBlock).filterMap (fun l =>
    let t := trim l
    if reTestAt stepLineRE t then some t else none)

/-- Backward scan of `extractExpectedResult`, on the reversed step
list: the first step matching `^then\s+` or `^and\s+then\s+` yields its
text with the matched prefix removed and trimmed. -/
def eerScan : List Str → Option Str
  | [] => none
  | step :: rest =>
    if reTestAt thenRE step then some (trim (reStripAt thenRE step))
    else if reTestAt andThenRE step then some (trim (reStripAt andThenRE step))
    else eerScan rest

/-- `GherkinParser.extractExpectedResult`. -/
def extractExpectedResult (steps : List Str) : Str :=
  match eerScan steps.reverse with
  | some r => r
  | none =>
    match steps.getLast? with
    | some last => trim (reStripAt stepLineRE last)
    | none => []

/-- One iteration of the primary `while (exec)` loop body: `acc` is the
scenario list built so far (its length feeds the synthesized name). -/
def primaryStep (acc : List ParsedScenario) (m : Caps) : List ParsedScenario :=
  let num := (getCap m 1).getD []
  let t1 := trim (collapseNL (trim ((getCap m 2).getD [])))
  let dflt := "Scenario ".data ++ (if num.isEmpty then natToStr (acc.length + 1) else num)
  let scenarioTitle := if t1.isEmpty then dflt else t1
  let steps := extractSteps ((getCap m 3).getD [])
  if steps.isEmpty then acc
  else
    let t2 := trim scenarioTitle
    let name := if t2.isEmpty then dflt else t2
    acc ++ [⟨name, steps, extractExpectedResult steps⟩]

/-- `String.prototype.split` with a (non-empty-matching) regex
separator. -/
def splitByReAux (r : RE) (s : Str) (fuel : Nat) : List Str :=
  match fuel with
  | 0 => [s]
  | fuel' + 1 =>
    match reFindFrom r s 0 with
    | none => [s]
    | some (start, stop, _) =>
      if stop ≤ start then [s]
      else s.take start :: splitByReAux r (s.drop stop) fuel'

def splitByRe (r : RE) (s : Str) : List Str :=
  splitByReAux r s (s.length + 1)

/-- `match[k].split(/\n(?:And|But)\s+/).filter(s => s.trim()).map(s => s.trim())`
guarded by the truthiness of `match[k]`. -/
def fbContSteps (cap : Option Str) : List Str :=
  match cap with
  | none => []
  | some v =>
    if v.isEmpty then []
    else ((splitByRe splitAndButRE v).filter (fun s => ¬ (trim s).isEmpty)).map trim

/-- `if (match[k]) steps.push(match[k].trim())`. -/
def fbOneStep (cap : Option Str) : List Str :=
  match cap with
  | none => []
  | some v => if v.isEmpty then [] else [trim v]

/-- One iteration of the fallback `while (exec)` loop body, carrying the
1-based `scenarioIndex`. -/
def fallbackStep (st : Nat × List ParsedScenario) (m : Caps) : Nat × List ParsedScenario :=
  let steps := fbOneStep (getCap m 1) ++ fbContSteps (getCap m 2)
    ++ fbOneStep (getCap m 3) ++ fbContSteps (getCap m 4)
  if steps.isEmpty then st
  else
    let expectedResult := (steps.getLast?).getD []
    (st.1 + 1,
      st.2 ++ [⟨"Scenario ".data ++ natToStr st.1, steps, expectedResult⟩])

/-- `GherkinParser.parseFallbackScenarios`. -/
def parseFallbackScenarios (description : Str) : List ParsedScenario :=
  ((reExecAll fallbackRE description).foldl fallbackStep (1, [])).2

/-- `GherkinParser.parseScenarios`. -/
def parseScenarios (description : Str) : List ParsedScenario :=
  if (trim description).isEmpty then []
  else
    let scenarios := (reExecAll primaryRE description).foldl primaryStep []
    if scenarios.isEmpty then parseFallbackScenarios description
    else scenarios

/-! ## TestRail data model and the pure reconciliation computations
(`src/sync/syncService.ts`) -/

structure TestRailSuite where
  id : Int
  name : Str
  deriving Repr, DecidableEq

structure TestRailSection where
  id : Int
  name : Str
  suite_id : Int
  parent_id : Option Int
  deriving Repr, DecidableEq

structure TestRailTestCaseResponse where
  id : Int
  title : Str
  refs : Option Str
  deriving Repr, DecidableEq

structure TestRailStep where
  content : Str
  expected : Str
  deriving Repr, DecidableEq

structure TestRailTestCase where
  title : Str
  section_id : Int
  preconds : Str
  refs : Str
  steps : List TestRailStep
  expected : Str
  deriving Repr, DecidableEq

structure JiraTicket where
  key : Str
  summary : Str
  description : Str
  url : Str
  deriving Repr, DecidableEq

/-- JavaScript truthiness of an optional numeric id (`undefined` and `0`
are falsy). -/
def truthyId : Option Int → Bool
  | none => false
  | some v => ¬ (v = 0)

/-- JavaScript truthiness of an optional string (`undefined` and `""`
are falsy). -/
def truthyStr : Option Str → Bool
  | none => false
  | some s => ¬ s.isEmpty

/-- `!s.parent_id`. -/
def parentFalsy (s : TestRailSection) : Bool := ¬ truthyId s.parent_id

/-- `tc.refs || ''`. -/
def refsOf (tc : TestRailTestCaseResponse) : Str := tc.refs.getD []

/-- The ticket's managed cases: `existingTestCases.filter(tc => (tc.refs || '').includes(jiraKey))`. -/
def managedCases (jiraKey : Str) (cases : List TestRailTestCaseResponse) :
    List TestRailTestCaseResponse :=
  cases.filter (fun tc => jsIncludes (refsOf tc) jiraKey)

/-- `Map.prototype.set`: overwrite in place, else append. -/
def mapSetTC (m : List (Str × TestRailTestCaseResponse)) (k : Str)
    (v : TestRailTestCaseResponse) : List (Str × TestRailTestCaseResponse) :=
  match m with
  | [] => [(k, v)]
  | (k', v') :: rest => if k' = k then (k, v) :: rest else (k', v') :: mapSetTC rest k v

/-- `Map.prototype.get`. -/
def mapGetTC (m : List (Str × TestRailTestCaseResponse)) (k : Str) :
    Option TestRailTestCaseResponse :=
  (m.find? (fun p => p.1 = k)).map (·.2)

/-- `existingCasesMap`: each managed case inserted under its lowercased,
trimmed title; later insertions overwrite earlier ones. -/
def buildCasesMap (l : List TestRailTestCaseResponse) :
    List (Str × TestRailTestCaseResponse) :=
  l.foldl (fun m tc => mapSetTC m (normKey tc.title) tc) []

/-- The per-step test used by the backward scans in `syncTicketToTestRail`
and `convertStepsToTestRailFormat`:
`/^then\s+/i.test(step) || /^and\s+then\s+/i.test(step)`. -/
def thenStepTest (s : Str) : Bool := reTestAt thenRE s || reTestAt andThenRE s

/-- Index of the first element satisfying `p`. -/
def firstIdxFrom (p : Str → Bool) : List Str → Option Nat
  | [] => none
  | x :: rest => if p x then some 0 else (firstIdxFrom p rest).map (· + 1)

/-- `lastThenIndex`: position of the last step passing `thenStepTest` —
the backward `for` loop scans from the end and stops at the first hit. -/
def lastThenIdx (steps : List Str) : Option Nat :=
  match firstIdxFrom thenStepTest steps.reverse with
  | some j => some (steps.length - 1 - j)
  | none => none

/-- The `expected` field of the payload: the last "Then" step and all
following steps joined by newlines, else the parser-provided
`scenario.expectedResult`. -/
def buildExpected (sc : ParsedScenario) : Str :=
  match lastThenIdx sc.steps with
  | some k => joinNL (sc.steps.drop k)
  | none => sc.expectedResult

/-- `SyncService.convertStepsToTestRailFormat`. -/
def convertStepsToTestRailFormat (sc : ParsedScenario) : List TestRailStep :=
  match lastThenIdx sc.steps with
  | none => sc.steps.map (fun st => ⟨st, []⟩)
  | some k => (sc.steps.take k).map (fun st => ⟨st, []⟩)

/-- The test-case payload assembled for one scenario. -/
def buildTestCase (ticket : JiraTicket) (sectionId : Int) (sc : ParsedScenario) :
    TestRailTestCase where
  title := sc.name
  section_id := sectionId
  preconds := "Jira Ticket: ".data ++ ticket.key ++ '\n' :: ticket.url
  refs := ticket.key
  steps := convertStepsToTestRailFormat sc
  expected := buildExpected sc

inductive CaseAction where
  | create (tc : TestRailTestCase)
  | update (existing : TestRailTestCaseResponse) (tc : TestRailTestCase)
  deriving Repr, DecidableEq

def CaseAction.isCreate : CaseAction → Bool
  | .create _ => true
  | _ => false

def CaseAction.target? : CaseAction → Option TestRailTestCaseResponse
  | .update ex _ => some ex
  | _ => none

/-- The create-or-update decision for one scenario: probe the title map
with the normalized scenario name. -/
def scenarioAction (map : List (Str × TestRailTestCaseResponse))
    (ticket : JiraTicket) (sectionId : Int) (sc : ParsedScenario) : CaseAction :=
  match mapGetTC map (normKey sc.name) with
  | some ex => .update ex (buildTestCase ticket sectionId sc)
  | none => .create (buildTestCase ticket sectionId sc)

/-- `jiraScenarioTitles`: the normalized names of all parsed scenarios. -/
def scenarioTitleSet (scenarios : List ParsedScenario) : List Str :=
  scenarios.map (fun s => normKey s.name)

/-- `testCasesToDelete`: managed cases whose normalized title is absent
from the scenario-title set. -/
def toDeleteList (managed : List TestRailTestCaseResponse) (titleSet : List Str) :
    List TestRailTestCaseResponse :=
  managed.filter (fun tc => ¬ titleSet.contains (normKey tc.title))

/-- The full create/update action list of one run, in scenario order. -/
def planActions (jiraKey : Str) (ticket : JiraTicket) (sectionId : Int)
    (scenarios : List ParsedScenario) (existing : List TestRailTestCaseResponse) :
    List CaseAction :=
  scenarios.map (scenarioAction (buildCasesMap (managedCases jiraKey existing)) ticket sectionId)

/-- The delete list of one run. -/
def planDeletes (jiraKey : Str) (scenarios : List ParsedScenario)
    (existing : List TestRailTestCaseResponse) : List TestRailTestCaseResponse :=
  toDeleteList (managedCases jiraKey existing) (scenarioTitleSet scenarios)

/-! ## The sync orchestrator as explicit state passing

The TestRail store is a state (suites, sections, cases, a fresh-id
counter); every client call is logged in issue order, and an `Oracle`
may make any individual call throw with a message, modelling remote
failures.  Error strings that no claim depends on are abbreviated. -/

inductive StoreCall where
  | getSuites
  | createSuite (name : Str)
  | getSections (suiteId : Int)
  | getSection (id : Int)
  | createSection (suiteId : Int) (name : Str) (parentId : Option Int)
  | getCases (sectionId : Int) (suiteId : Option Int)
  | createCase (sectionId : Int) (tc : TestRailTestCase)
  | updateCase (id : Int) (tc : TestRailTestCase)
  | deleteCase (id : Int)
  deriving Repr, DecidableEq

def StoreCall.isMutating : StoreCall → Bool
  | .createSuite _ => true
  | .createSection _ _ _ => true
  | .createCase _ _ => true
  | .updateCase _ _ => true
  | .deleteCase _ => true
  | _ => false

def StoreCall.isGetCases : StoreCall → Bool
  | .getCases _ _ => true
  | _ => false

structure StoreState where
  suites : List TestRailSuite
  sections : List TestRailSection
  cases : List TestRailTestCaseResponse
  nextId : Int
  deriving Repr, DecidableEq

structure ExecState where
  store : StoreState
  calls : List StoreCall
  deriving Repr, DecidableEq

abbrev Oracle := StoreCall → Option Str

def logCall (st : ExecState) (c : StoreCall) : ExecState :=
  { st with calls := st.calls ++ [c] }

def callGetSuites (oracle : Oracle) (st : ExecState) :
    Except Str (List TestRailSuite) × ExecState :=
  let st := logCall st .getSuites
  match oracle .getSuites with
  | some msg => (.error msg, st)
  | none => (.ok st.store.suites, st)

def callCreateSuite (oracle : Oracle) (st : ExecState) (name : Str) :
    Except Str TestRailSuite × ExecState :=
  let st := logCall st (.createSuite name)
  match oracle (.createSuite name) with
  | some msg => (.error msg, st)
  | none =>
    let suite : TestRailSuite := ⟨st.store.nextId, name⟩
    (.ok suite,
      { st with store := { st.store with
          suites := st.store.suites ++ [suite], nextId := st.store.nextId + 1 } })

def callGetSections (oracle : Oracle) (st : ExecState) (suiteId : Int) :
    Except Str (List TestRailSection) × ExecState :=
  let st := logCall st (.getSections suiteId)
  match oracle (.getSections suiteId) with
  | some msg => (.error msg, st)
  | none => (.ok (st.store.sections.filter (fun s => s.suite_id = suiteId)), st)

def callGetSection (oracle : Oracle) (st : ExecState) (id : Int) :
    Except Str TestRailSection × ExecState :=
  let st := logCall st (.getSection id)
  match oracle (.getSection id) with
  | some msg => (.error msg, st)
  | none =>
    match st.store.sections.find? (fun s => s.id = id) with
    | some s => (.ok s, st)
    | none => (.error ("Section not found".data), st)

def callCreateSection (oracle : Oracle) (st : ExecState) (suiteId : Int)
    (name : Str) (parentId : Option Int) :
    Except Str TestRailSection × ExecState :=
  let st := logCall st (.createSection suiteId name parentId)
  match oracle (.createSection suiteId name parentId) with
  | some msg => (.error msg, st)
  | none =>
    let sec : TestRailSection := ⟨st.store.nextId, name, suiteId, parentId⟩
    (.ok sec,
      { st with store := { st.store with
          sections := st.store.sections ++ [sec], nextId := st.store.nextId + 1 } })

def callGetCases (oracle : Oracle) (st : ExecState) (sectionId : Int)
    (suiteId : Option Int) :
    Except Str (List TestRailTestCaseResponse) × ExecState :=
  let st := logCall st (.getCases sectionId suiteId)
  match oracle (.getCases sectionId suiteId) with
  | some msg => (.error msg, st)
  | none => (.ok st.store.cases, st)

def callCreateCase (oracle : Oracle) (st : ExecState) (sectionId : Int)
    (tc : TestRailTestCase) :
    Except Str TestRailTestCaseResponse × ExecState :=
  let st := logCall st (.createCase sectionId tc)
  match oracle (.createCase sectionId tc) with
  | some msg => (.error msg, st)
  | none =>
    let resp : TestRailTestCaseResponse := ⟨st.store.nextId, tc.title, some tc.refs⟩
    (.ok resp,
      { st with store := { st.store with
          cases := st.store.cases ++ [resp], nextId := st.store.nextId + 1 } })

def callUpdateCase (oracle : Oracle) (st : ExecState) (id : Int)
    (tc : TestRailTestCase) :
    Except Str TestRailTestCaseResponse × ExecState :=
  let st := logCall st (.updateCase id tc)
  match oracle (.updateCase id tc) with
  | some msg => (.error msg, st)
  | none =>
    let resp : TestRailTestCaseResponse := ⟨id, tc.title, some tc.refs⟩
    (.ok resp,
      { st with store := { st.store with
          cases := st.store.cases.map (fun c => if c.id = id then resp else c) } })

def callDeleteCase (oracle : Oracle) (st : ExecState) (id : Int) :
    Except Str Unit × ExecState :=
  let st := logCall st (.deleteCase id)
  match oracle (.deleteCase id) with
  | some msg => (.error msg, st)
  | none =>
    (.ok (),
      { st with store := { st.store with
          cases := st.store.cases.filter (fun c => ¬ (c.id = id)) } })

/-- Generic single-character split keeping empty pieces. -/
def splitOnCh (sep : Char) : Str → List Str
  | [] => [[]]
  | c :: rest =>
    let r := splitOnCh sep rest
    if c = sep then [] :: r
    else
      match r with
      | [] => [[c]]
      | h :: t => (c :: h) :: t

/-- `path.split('/').map(p => p.trim()).filter(p => p.length > 0)`. -/
def pathParts (s : Str) : List Str :=
  ((splitOnCh '/' s).map trim).filter (fun p => ¬ p.isEmpty)

/-- `sectionName.split('/').pop() || sectionName`. -/
def lastSegOrSelf (s : Str) : Str :=
  match (splitOnCh '/' s).getLast? with
  | some last => if last.isEmpty then s else last
  | none => s

def intToStr (n : Int) : Str :=
  if n < 0 then '-' :: natToStr n.natAbs else natToStr n.natAbs

/-- `currentParentId || undefined`. -/
def normParent : Option Int → Option Int
  | none => none
  | some v => if v = 0 then none else some v

def idFalsy (o : Option Int) : Bool := ¬ truthyId o

structure RunEnv where
  jiraKey : Str
  testrailSuiteId : Option Int
  testrailSectionId : Option Int
  sectionName : Option Str
  dryRun : Bool
  suiteName : Option Str
  createSuiteIfMissing : Bool
  createSectionIfMissing : Bool
  ticket : JiraTicket
  deriving Repr, DecidableEq

structure SyncResult where
  scenariosFound : Nat
  scenariosCreated : Nat
  scenariosUpdated : Nat
  scenariosDeleted : Nat
  scenariosSkipped : Nat
  testCaseIds : List Int
  errors : List Str
  deriving Repr, DecidableEq

def emptyResult : SyncResult := ⟨0, 0, 0, 0, 0, [], []⟩

/-- `TestRailClient.findSuiteByName`: fetch the suites and search for a
lowercased, trimmed, whitespace-collapsed exact name match. -/
def findSuiteByName (oracle : Oracle) (st : ExecState) (name : Str) :
    Except Str (Option TestRailSuite) × ExecState :=
  match callGetSuites oracle st with
  | (.error e, st) => (.error e, st)
  | (.ok suites, st) =>
    (.ok (suites.find? (fun s => normSuite s.name = normSuite name)), st)

/-- Step 0 of `syncTicketToTestRail` (suite resolution, lines 476–517 of
the sync service): when a suite name but no suite id is supplied, look
the suite up; on a miss create it — except in dry-run, where the
creation is skipped and `resolvedSuiteId` keeps its (falsy) initial
value — or fail if creation is not permitted. -/
def resolveSuitePhase (oracle : Oracle) (env : RunEnv) (st : ExecState) :
    Except Str (Option Int) × ExecState :=
  if truthyStr env.suiteName ∧ idFalsy env.testrailSuiteId then
    let sn := env.suiteName.getD []
    match findSuiteByName oracle st sn with
    | (.error e, st) => (.error e, st)
    | (.ok (some existingSuite), st) => (.ok (some existingSuite.id), st)
    | (.ok none, st) =>
      if env.createSuiteIfMissing then
        if env.dryRun then (.ok env.testrailSuiteId, st)
        else
          match callCreateSuite oracle st sn with
          | (.error e, st) => (.error e, st)
          | (.ok newSuite, st) => (.ok (some newSuite.id), st)
      else
        match callGetSuites oracle st with
        | (_, st) => (.error ("Suite \"".data ++ sn ++ "\" not found".data), st)
  else (.ok env.testrailSuiteId, st)

/-- The hierarchical-path walk of the section-name logic (lines 596–668):
parts are (normalized, original-casing) pairs; missing segments are
created when permitted (a `-1`-id mock in dry-run), newly created
sections are appended to the working list so later segments see them. -/
def findOrCreatePath (oracle : Oracle) (suiteId : Int)
    (createSectionIfMissing dryRun : Bool) :
    List (Str × Str) → List TestRailSection → Option Int → ExecState →
    Except Str (Option TestRailSection) × List TestRailSection × ExecState
  | [], sections, _, st => (.ok none, sections, st)
  | (pNorm, pOrig) :: rest, sections, currentParentId, st =>
    match sections.find? (fun s =>
        (normKey s.name == pNorm) &&
        (match currentParentId with
         | none => parentFalsy s
         | some pid => s.parent_id == some pid)) with
    | some foundSection =>
      if rest.isEmpty then (.ok (some foundSection), sections, st)
      else
        findOrCreatePath oracle suiteId createSectionIfMissing dryRun rest
          sections (some foundSection.id) st
    | none =>
      if createSectionIfMissing then
        if dryRun then
          let mock : TestRailSection := ⟨-1, pOrig, suiteId, normParent currentParentId⟩
          let sections := sections ++ [mock]
          if rest.isEmpty then (.ok (some mock), sections, st)
          else
            findOrCreatePath oracle suiteId createSectionIfMissing dryRun rest
              sections (some mock.id) st
        else
          match callCreateSection oracle st suiteId pOrig (normParent currentParentId) with
          | (.error e, st) => (.error e, sections, st)
          | (.ok newSection, st) =>
            let sections := sections ++ [newSection]
            if rest.isEmpty then (.ok (some newSection), sections, st)
            else
              findOrCreatePath oracle suiteId createSectionIfMissing dryRun rest
                sections (some newSection.id) st
      else
        (.error ("Section \"".data ++ pOrig ++ "\" not found".data), sections, st)

/-- The loop of `SyncService.createSectionHierarchy` for a multi-segment
path. -/
def cshLoop (oracle : Oracle) (suiteId : Int) (dryRun : Bool) :
    List Str → List TestRailSection → Option Int → ExecState →
    Except Str TestRailSection × List TestRailSection × ExecState
  | [], sections, _, st =>
    (.error ("Failed to create section hierarchy".data), sections, st)
  | partName :: rest, sections, currentParentId, st =>
    match sections.find? (fun s =>
        (normKey s.name == normKey partName) &&
        (match currentParentId with
         | none => parentFalsy s
         | some pid => s.parent_id == some pid)) with
    | some existingSection =>
      if rest.isEmpty then
        match sections.find? (fun s => s.id = existingSection.id) with
        | some finalSection => (.ok finalSection, sections, st)
        | none => (.error ("Failed to create or find section".data), sections, st)
      else cshLoop oracle suiteId dryRun rest sections (some existingSection.id) st
    | none =>
      if dryRun then
        (.error ("[DRY RUN] Section would be created".data), sections, st)
      else
        match callCreateSection oracle st suiteId partName currentParentId with
        | (.error e, st) => (.error e, sections, st)
        | (.ok newSection, st) =>
          let sections := sections ++ [newSection]
          if rest.isEmpty then
            match sections.find? (fun s => s.id = newSection.id) with
            | some finalSection => (.ok finalSection, sections, st)
            | none => (.error ("Failed to create or find section".data), sections, st)
          else cshLoop oracle suiteId dryRun rest sections (some newSection.id) st

/-- `SyncService.createSectionHierarchy`: a one-segment path creates one
top-level section; a multi-segment path walks/creates parents first.
(The `createSectionIfMissing` parameter of the source method is unused
in its body and is omitted here.) -/
def createSectionHierarchy (oracle : Oracle) (suiteId : Int)
    (sectionPath : Str) (existingSections : List TestRailSection)
    (dryRun : Bool) (st : ExecState) :
    Except Str TestRailSection × List TestRailSection × ExecState :=
  match pathParts sectionPath with
  | [p] =>
    if dryRun then
      (.error ("[DRY RUN] Section would be created".data), existingSections, st)
    else
      match callCreateSection oracle st suiteId p none with
      | (.error e, st) => (.error e, existingSections, st)
      | (.ok s, st) => (.ok s, existingSections, st)
  | parts => cshLoop oracle suiteId dryRun parts existingSections none st

/-- Lines 679–716: the fallback when the section-name search selected
nothing — create the section (a `-1`-id mock in dry-run) or fail. -/
def noSelectedFallback (oracle : Oracle) (env : RunEnv) (rsid : Int)
    (sn : Str) (sections : List TestRailSection) (st : ExecState) :
    Except Str (Option TestRailSection) × ExecState :=
  if env.createSectionIfMissing then
    if env.dryRun then
      (.ok (some ⟨-1, lastSegOrSelf sn, rsid, none⟩), st)
    else
      match createSectionHierarchy oracle rsid sn sections env.dryRun st with
      | (.error e, _, st) => (.error e, st)
      | (.ok newSection, _, st) => (.ok (some newSection), st)
  else
    (.error ("Section \"".data ++ sn ++ "\" not found in suite".data), st)

/-- Lines 568–743: select the target section inside the resolved suite —
by name (single segment: top-level first, then any depth; multi-segment:
hierarchical walk), or default to the first top-level section (falling
back to the first section of the list). -/
def findSelectedSection (oracle : Oracle) (env : RunEnv) (rsid : Int)
    (sections : List TestRailSection) (st : ExecState) :
    Except Str (Option TestRailSection) × ExecState :=
  if truthyStr env.sectionName then
    let sn := env.sectionName.getD []
    let normalizedName := normKey sn
    let originalNameParts := pathParts sn
    let nameParts := pathParts normalizedName
    if nameParts.length = 1 then
      let sel :=
        match sections.find? (fun s => normKey s.name = normalizedName ∧ parentFalsy s) with
        | some s => some s
        | none => sections.find? (fun s => normKey s.name = normalizedName)
      match sel with
      | some s => (.ok (some s), st)
      | none => noSelectedFallback oracle env rsid sn sections st
    else
      match findOrCreatePath oracle rsid env.createSectionIfMissing env.dryRun
          (nameParts.zip originalNameParts) sections none st with
      | (.error e, _, st) => (.error e, st)
      | (.ok (some s), _, st) => (.ok (some s), st)
      | (.ok none, _, st) => noSelectedFallback oracle env rsid sn sections st
  else
    let sel :=
      match sections.find? parentFalsy with
      | some s => some s
      | none => sections.head?
    (.ok sel, st)

/-- Lines 531–563: when the fetched section list is empty, either create
the requested section hierarchy (a `-1` placeholder id in dry-run) or
fail; otherwise pass the list through with no section chosen yet. -/
def emptySectionsStep (oracle : Oracle) (env : RunEnv) (rsid : Int)
    (sections0 : List TestRailSection) (st : ExecState) :
    Except Str (Option Int × List TestRailSection) × ExecState :=
  if sections0.isEmpty then
    if env.createSectionIfMissing ∧ truthyStr env.sectionName then
      let sn := env.sectionName.getD []
      if env.dryRun then (.ok (some (-1), sections0), st)
      else
        match createSectionHierarchy oracle rsid sn sections0 env.dryRun st with
        | (.error e, _, st) => (.error e, st)
        | (.ok newSection, sections', st) => (.ok (some newSection.id, sections'), st)
    else (.error ("No sections found in suite".data), st)
  else (.ok (none, sections0), st)

/-- Lines 519–777: resolve the concrete section id (and the suite id
carried to the case listing) from a resolved suite id, a direct section
id, or fail when neither is available. -/
def resolveSectionPhase (oracle : Oracle) (env : RunEnv)
    (resolvedSuiteId : Option Int) (st : ExecState) :
    Except Str (Int × Option Int) × ExecState :=
  if truthyId resolvedSuiteId then
    let rsid := resolvedSuiteId.getD 0
    match callGetSections oracle st rsid with
    | (.error e, st) => (.error e, st)
    | (.ok sections0, st) =>
      match emptySectionsStep oracle env rsid sections0 st with
      | (.error e, st) => (.error e, st)
      | (.ok (sectionIdOpt, sections), st) =>
        let afterFind : Except Str (Option Int) × ExecState :=
          if idFalsy sectionIdOpt then
            match findSelectedSection oracle env rsid sections st with
            | (.error e, st) => (.error e, st)
            | (.ok (some s), st) => (.ok (some s.id : Option Int), st)
            | (.ok none, st) => (.ok sectionIdOpt, st)
          else (.ok sectionIdOpt, st)
        match afterFind with
        | (.error e, st) => (.error e, st)
        | (.ok o, st) =>
          if idFalsy o then
            (.error ("Failed to resolve section ID. This should not happen.".data), st)
          else (.ok (o.getD 0, resolvedSuiteId), st)
  else if truthyId env.testrailSectionId then
    let sid := env.testrailSectionId.getD 0
    match callGetSection oracle st sid with
    | (.error _, st) => (.ok (sid, env.testrailSuiteId), st)
    | (.ok sectionDetails, st) =>
      if truthyId (some sectionDetails.suite_id) then
        (.ok (sid, some sectionDetails.suite_id), st)
      else (.ok (sid, env.testrailSuiteId), st)
  else
    (.error ("Either suite ID, suite name, or section ID must be provided".data), st)

/-- Lines 799–811: the case listing, skipped entirely in dry-run under
the `-1` placeholder section. -/
def fetchExistingCases (oracle : Oracle) (dryRun : Bool) (sectionId : Int)
    (suiteOut : Option Int) (st : ExecState) :
    Except Str (List TestRailTestCaseResponse) × ExecState :=
  if dryRun ∧ sectionId = -1 then (.ok [], st)
  else callGetCases oracle st sectionId (if truthyId suiteOut then suiteOut else none)

def syncFailMsg (name msg : Str) : Str :=
  "Failed to sync scenario \"".data ++ name ++ "\": ".data ++ msg

def deleteFailMsg (tc : TestRailTestCaseResponse) (msg : Str) : Str :=
  "Failed to delete test case \"".data ++ tc.title ++ "\" (ID: ".data
    ++ intToStr tc.id ++ "): ".data ++ msg

/-- The store call a given scenario's action issues when executed
outside dry-run. -/
def scenarioCall (map : List (Str × TestRailTestCaseResponse))
    (ticket : JiraTicket) (sectionId : Int) (sc : ParsedScenario) : StoreCall :=
  match scenarioAction map ticket sectionId sc with
  | .update ex tc => .updateCase ex.id tc
  | .create tc => .createCase sectionId tc

/-- One iteration of the create/update loop (lines 839–909): the whole
body is inside a try/catch, so a failing call only appends an error
naming the scenario and bumps the skipped counter. -/
def processScenario (oracle : Oracle) (dryRun : Bool) (ticket : JiraTicket)
    (sectionId : Int) (map : List (Str × TestRailTestCaseResponse))
    (acc : SyncResult × ExecState) (sc : ParsedScenario) :
    SyncResult × ExecState :=
  let (res, st) := acc
  match scenarioAction map ticket sectionId sc with
  | .update existingCase testCase =>
    if dryRun then
      ({ res with scenariosUpdated := res.scenariosUpdated + 1 }, st)
    else
      match callUpdateCase oracle st existingCase.id testCase with
      | (.error msg, st) =>
        ({ res with errors := res.errors ++ [syncFailMsg sc.name msg],
                    scenariosSkipped := res.scenariosSkipped + 1 }, st)
      | (.ok updatedCase, st) =>
        ({ res with testCaseIds := res.testCaseIds ++ [updatedCase.id],
                    scenariosUpdated := res.scenariosUpdated + 1 }, st)
  | .create testCase =>
    if dryRun then
      ({ res with scenariosCreated := res.scenariosCreated + 1 }, st)
    else
      match callCreateCase oracle st sectionId testCase with
      | (.error msg, st) =>
        ({ res with errors := res.errors ++ [syncFailMsg sc.name msg],
                    scenariosSkipped := res.scenariosSkipped + 1 }, st)
      | (.ok newCase, st) =>
        ({ res with testCaseIds := res.testCaseIds ++ [newCase.id],
                    scenariosCreated := res.scenariosCreated + 1 }, st)

/-- One iteration of the delete loop (lines 925–942), likewise inside a
per-case try/catch. -/
def processDelete (oracle : Oracle) (dryRun : Bool)
    (acc : SyncResult × ExecState) (tc : TestRailTestCaseResponse) :
    SyncResult × ExecState :=
  let (res, st) := acc
  if dryRun then
    ({ res with scenariosDeleted := res.scenariosDeleted + 1 }, st)
  else
    match callDeleteCase oracle st tc.id with
    | (.error msg, st) =>
      ({ res with errors := res.errors ++ [deleteFailMsg tc msg],
                  scenariosSkipped := res.scenariosSkipped + 1 }, st)
    | (.ok _, st) =>
      ({ res with scenariosDeleted := res.scenariosDeleted + 1 }, st)

/-- `SyncService.syncTicketToTestRail` (the nine-parameter variant):
suite resolution, section resolution, parse, case listing, the
create/update loop, and the delete loop.  The Jira ticket fetch is
taken as an input (its failure would abort the run before any store
mutation).  Errors thrown anywhere propagate as `.error`; the call log
survives in the returned state. -/
def runSync (oracle : Oracle) (env : RunEnv) (store₀ : StoreState) :
    Except Str SyncResult × ExecState :=
  let st : ExecState := ⟨store₀, []⟩
  match resolveSuitePhase oracle env st with
  | (.error e, st) => (.error e, st)
  | (.ok resolvedSuiteId, st) =>
    match resolveSectionPhase oracle env resolvedSuiteId st with
    | (.error e, st) => (.error e, st)
    | (.ok (sectionId, suiteOut), st) =>
      let scenarios := parseScenarios env.ticket.description
      let res0 := { emptyResult with scenariosFound := scenarios.length }
      if scenarios.isEmpty then (.ok res0, st)
      else
        match fetchExistingCases oracle env.dryRun sectionId suiteOut st with
        | (.error e, st) => (.error e, st)
        | (.ok existingTestCases, st) =>
          let managed := managedCases env.jiraKey existingTestCases
          let map := buildCasesMap managed
          let titleSet := scenarioTitleSet scenarios
          let (res1, st) :=
            scenarios.foldl (processScenario oracle env.dryRun env.ticket sectionId map) (res0, st)
          let (res2, st) :=
            (toDeleteList managed titleSet).foldl (processDelete oracle env.dryRun) (res1, st)
          (.ok res2, st)

/-! ## Supporting lemmas -/

theorem primaryStep_steps_ne_nil {acc : List ParsedScenario} {m : Caps}
    (h : ∀ sc ∈ acc, sc.steps ≠ []) :
    ∀ sc ∈ primaryStep acc m, sc.steps ≠ [] := by
  intro sc hsc
  simp only [primaryStep] at hsc
  split at hsc
  case isTrue => exact h sc hsc
  case isFalse hfalse =>
    rcases List.mem_append.mp hsc with hmem | hmem
    · exact h sc hmem
    · rw [List.mem_singleton] at hmem
      subst hmem
      exact fun hnil => hfalse (List.isEmpty_iff.mpr hnil)

theorem primaryFold_steps_ne_nil (ms : List Caps) :
    ∀ (acc : List ParsedScenario), (∀ sc ∈ acc, sc.steps ≠ []) →
      ∀ sc ∈ ms.foldl primaryStep acc, sc.steps ≠ [] := by
  induction ms with
  | nil => intro acc h sc hsc; exact h sc hsc
  | cons m ms ih =>
    intro acc h sc hsc
    exact ih (primaryStep acc m) (primaryStep_steps_ne_nil h) sc hsc

theorem fallbackStep_steps_ne_nil {st : Nat × List ParsedScenario} {m : Caps}
    (h : ∀ sc ∈ st.2, sc.steps ≠ []) :
    ∀ sc ∈ (fallbackStep st m).2, sc.steps ≠ [] := by
  intro sc hsc
  simp only [fallbackStep] at hsc
  split at hsc
  case isTrue => exact h sc hsc
  case isFalse hfalse =>
    rcases List.mem_append.mp hsc with hmem | hmem
    · exact h sc hmem
    · rw [List.mem_singleton] at hmem
      subst hmem
      exact fun hnil => hfalse (List.isEmpty_iff.mpr hnil)

theorem fallbackFold_steps_ne_nil (ms : List Caps) :
    ∀ (st : Nat × List ParsedScenario), (∀ sc ∈ st.2, sc.steps ≠ []) →
      ∀ sc ∈ (ms.foldl fallbackStep st).2, sc.steps ≠ [] := by
  induction ms with
  | nil => intro st h sc hsc; exact h sc hsc
  | cons m ms ih =>
    intro st h sc hsc
    exact ih (fallbackStep st m) (fallbackStep_steps_ne_nil h) sc hsc

theorem firstIdxFrom_eq_none_iff (p : Str → Bool) (l : List Str) :
    firstIdxFrom p l = none ↔ ∀ x ∈ l, p x = false := by
  induction l with
  | nil => simp [firstIdxFrom]
  | cons x rest ih =>
    by_cases hx : p x
    · simp [firstIdxFrom, hx]
    · have hx' : p x = false := by simpa using hx
      simp [firstIdxFrom, hx', Option.map_eq_none', ih]

theorem firstIdxFrom_some (p : Str → Bool) :
    ∀ (l : List Str) (j : Nat), firstIdxFrom p l = some j →
      ∃ hj : j < l.length, p (l.get ⟨j, hj⟩) = true ∧
        ∀ i (hi : i < l.length), i < j → p (l.get ⟨i, hi⟩) = false := by
  intro l
  induction l with
  | nil => intro j h; simp [firstIdxFrom] at h
  | cons x rest ih =>
    intro j h
    by_cases hx : p x
    · simp only [firstIdxFrom, hx, if_true, Option.some.injEq] at h
      subst h
      exact ⟨by simp, by simpa using hx, fun i hi hlt => absurd hlt (by omega)⟩
    · have hx' : p x = false := by simpa using hx
      simp only [firstIdxFrom, hx', Bool.false_eq_true, if_false, Option.map_eq_some'] at h
      obtain ⟨j', hj', rfl⟩ := h
      obtain ⟨hlt, hp, hbefore⟩ := ih j' hj'
      refine ⟨by simpa using Nat.succ_lt_succ hlt, by simpa using hp, ?_⟩
      intro i hi hilt
      cases i with
      | zero => simpa using hx
      | succ i' =>
        have := hbefore i' (by simpa using hi) (by omega)
        simpa using this

theorem lastThenIdx_none_iff (steps : List Str) :
    lastThenIdx steps = none ↔ ∀ s ∈ steps, thenStepTest s = false := by
  unfold lastThenIdx
  rcases h : firstIdxFrom thenStepTest steps.reverse with - | j
  · simp only [h, true_iff]
    intro s hs
    exact (firstIdxFrom_eq_none_iff _ _).mp h s (List.mem_reverse.mpr hs)
  · simp only [h, reduceCtorEq, false_iff, not_forall]
    obtain ⟨hj, hp, -⟩ := firstIdxFrom_some _ _ _ h
    refine ⟨steps.reverse.get ⟨j, hj⟩, ?_⟩
    refine ⟨List.mem_reverse.mp (List.get_mem _ _ _), ?_⟩
    intro hf
    rw [hf] at hp
    exact Bool.noConfusion hp

theorem lastThenIdx_some {steps : List Str} {k : Nat}
    (h : lastThenIdx steps = some k) :
    ∃ hk : k < steps.length, thenStepTest (steps.get ⟨k, hk⟩) = true ∧
      ∀ j (hj : j < steps.length), k < j → thenStepTest (steps.get ⟨j, hj⟩) = false := by
  unfold lastThenIdx at h
  cases hfind : firstIdxFrom thenStepTest steps.reverse with
  | none => simp [hfind] at h
  | some i =>
    rw [hfind, Option.some.injEq] at h
    subst h
    obtain ⟨hi, hp, hbefore⟩ := firstIdxFrom_some _ _ _ hfind
    have hlen : steps.reverse.length = steps.length := List.length_reverse steps
    have hi' : i < steps.length := hlen ▸ hi
    have hk : steps.length - 1 - i < steps.length := by omega
    refine ⟨hk, ?_, ?_⟩
    · have hp' := hp
      rw [List.get_eq_getElem, List.getElem_reverse] at hp'
      simpa using hp'
    · intro j hj hgt
      have hb := hbefore (steps.length - 1 - j) (by rw [hlen]; omega) (by omega)
      rw [List.get_eq_getElem, List.getElem_reverse] at hb
      have hidx : steps.length - 1 - (steps.length - 1 - j) = j := by omega
      simp only [hidx] at hb
      simpa using hb

theorem lastThenIdx_eq_some_of {steps : List Str} {k : Nat} (hk : k < steps.length)
    (hmatch : thenStepTest (steps.get ⟨k, hk⟩) = true)
    (hafter : ∀ j (hj : j < steps.length), k < j → thenStepTest (steps.get ⟨j, hj⟩) = false) :
    lastThenIdx steps = some k := by
  cases hidx : lastThenIdx steps with
  | none =>
    have := (lastThenIdx_none_iff steps).mp hidx (steps.get ⟨k, hk⟩) (List.get_mem _ _ _)
    rw [hmatch] at this
    exact Bool.noConfusion this
  | some j =>
    obtain ⟨hj, hm', haft'⟩ := lastThenIdx_some hidx
    have h1 : ¬ k < j := by
      intro hlt
      have := hafter j hj hlt
      rw [hm'] at this
      exact Bool.noConfusion this
    have h2 : ¬ j < k := by
      intro hlt
      have := haft' k hk hlt
      rw [hmatch] at this
      exact Bool.noConfusion this
    have : j = k := by omega
    rw [this]

theorem eerScan_eq_none {l : List Str} (h : ∀ x ∈ l, thenStepTest x = false) :
    eerScan l = none := by
  induction l with
  | nil => rfl
  | cons x rest ih =>
    have hx := h x (List.mem_cons_self _ _)
    rw [thenStepTest, Bool.or_eq_false_iff] at hx
    simp [eerScan, hx.1, hx.2, ih (fun y hy => h y (List.mem_cons_of_mem _ hy))]

/-! ## Claim theorems -/

def c1input : Str :=
  ("Scenario 1: User login\nWhen user enters valid credentials\nAnd clicks login button\nThen user is logged in\nAnd redirected to dashboard").data

def c1record : ParsedScenario :=
  ⟨"User login".data,
   ["When user enters valid credentials".data, "And clicks login button".data,
    "Then user is logged in".data, "And redirected to dashboard".data],
   "user is logged in".data⟩

set_option maxRecDepth 100000

/-- C1 (counterexample): on the Format-1 input, `parseScenarios` does
not return the claimed record — the expected-result steps are not
excluded from `steps`, and `expectedResult` is the last Then step with
its keyword stripped, not the keyword-kept newline join. -/
theorem C1_counterexample :
    parseScenarios c1input ≠
      [⟨"User login".data,
        ["When user enters valid credentials".data, "And clicks login button".data],
        ("Then user is logged in\nAnd redirected to dashboard").data⟩] := by
  decide

/-- C1 (amended): on the Format-1 input, `parseScenarios` returns one
record with name "User login", all four step lines (keywords kept), and
`expectedResult = "user is logged in"` (the last Then step, keyword
stripped).  The claimed split — steps reduced to the two pre-Then lines
and the expected result being the keyword-kept newline join of the Then
step and the trailing And step — is produced downstream by the
orchestrator's payload computation, not by the parser. -/
theorem C1_amended :
    parseScenarios c1input = [c1record] ∧
    convertStepsToTestRailFormat c1record =
      [⟨"When user enters valid credentials".data, []⟩,
       ⟨"And clicks login button".data, []⟩] ∧
    buildExpected c1record = ("Then user is logged in\nAnd redirected to dashboard").data := by
  refine ⟨by decide, by decide, by decide⟩

def c5input : Str :=
  ("When user enters invalid credentials\nThen error message is displayed").data

/-- C5 (counterexample): on the no-marker input, the single record's
`expectedResult` is "error message is displayed" — the fallback pattern
captures the step text after the keyword, so the claimed value
"Then error message is displayed" does not occur. -/
theorem C5_counterexample :
    (parseScenarios c5input).map ParsedScenario.expectedResult =
      ["error message is displayed".data] ∧
    ("error message is displayed").data ≠ ("Then error message is displayed").data := by
  refine ⟨by decide, by decide⟩

/-- C5 (amended): the no-marker input yields exactly one record named
"Scenario 1" whose steps and expected result are the captured step
texts without their leading keywords; in particular
`expectedResult = "error message is displayed"`. -/
theorem C5_amended :
    parseScenarios c5input =
      [⟨"Scenario 1".data,
        ["user enters invalid credentials".data, "error message is displayed".data],
        "error message is displayed".data⟩] := by
  decide

/-- C7: every record emitted by `parseScenarios` — by either the primary
pass (which skips scenario blocks whose extracted step list is empty) or
the fallback pass (which only emits when it collected steps) — has at
least one step; and the concrete block of a "Scenario:" marker followed
immediately by another "Scenario:" marker yields no record at all. -/
theorem C7_records_have_steps :
    (∀ (description : Str), ∀ sc ∈ parseScenarios description, sc.steps ≠ []) ∧
    parseScenarios ("Scenario:\nScenario:").data = [] := by
  constructor
  · intro description sc hsc
    unfold parseScenarios at hsc
    by_cases hempty : (trim description).isEmpty
    · simp [hempty] at hsc
    · simp only [hempty, if_false] at hsc
      by_cases hp : ((reExecAll primaryRE description).foldl primaryStep []).isEmpty
      · simp only [hp, if_true] at hsc
        unfold parseFallbackScenarios at hsc
        exact fallbackFold_steps_ne_nil _ (1, []) (by simp) sc hsc
      · simp only [hp, if_false] at hsc
        exact primaryFold_steps_ne_nil _ [] (by simp) sc hsc
  · decide

/-- C7 witness: the invariant applied to a concrete parse. -/
theorem C7_records_have_steps_witness :
    (⟨"Scenario 1".data, ["a".data, "b".data], "b".data⟩ : ParsedScenario).steps ≠ [] :=
  C7_records_have_steps.1 ("When a\nThen b").data
    ⟨"Scenario 1".data, ["a".data, "b".data], "b".data⟩ (by decide)

/-- C2 (counterexample): on the no-marker input "When x\nThen but
nothing", the fallback pass yields the record with steps
["x", "but nothing"] — no step matches the then-scan, so the payload's
expected field is the scenario's `expectedResult` "but nothing", whereas
the claim's parenthetical (the last step with its leading keyword
stripped) would be "nothing" ("but" is a recognized keyword). -/
theorem C2_counterexample :
    parseScenarios ("When x\nThen but nothing").data =
      [⟨"Scenario 1".data, ["x".data, "but nothing".data], "but nothing".data⟩] ∧
    thenStepTest "x".data = false ∧
    thenStepTest "but nothing".data = false ∧
    buildExpected ⟨"Scenario 1".data, ["x".data, "but nothing".data], "but nothing".data⟩ =
      "but nothing".data ∧
    trim (reStripAt stepLineRE "but nothing".data) = "nothing".data ∧
    ("but nothing").data ≠ ("nothing").data := by
  refine ⟨by decide, by decide, by decide, by decide, by decide, by decide⟩

/-- C2 (amended): the payload split follows rule 5.  If the last index k
matching `^then\s` or `^and\s+then\s` (case-insensitive) exists, the
steps field holds exactly the steps strictly before k (each with empty
per-step expected) and the expected field is the steps from k on joined
by newlines.  If no step matches, the steps field holds all steps and
the expected field is the scenario's `expectedResult` — which equals the
last step with its leading keyword stripped when `expectedResult` was
produced by the primary pass's `extractExpectedResult` (fallback-pass
records store the last collected step verbatim instead). -/
theorem C2_amended :
    (∀ (sc : ParsedScenario) (k : Nat) (hk : k < sc.steps.length),
        thenStepTest (sc.steps.get ⟨k, hk⟩) = true →
        (∀ j (hj : j < sc.steps.length), k < j → thenStepTest (sc.steps.get ⟨j, hj⟩) = false) →
        convertStepsToTestRailFormat sc = (sc.steps.take k).map (fun st => ⟨st, []⟩) ∧
        buildExpected sc = joinNL (sc.steps.drop k)) ∧
    (∀ sc : ParsedScenario,
        (∀ st ∈ sc.steps, thenStepTest st = false) →
        convertStepsToTestRailFormat sc = sc.steps.map (fun st => ⟨st, []⟩) ∧
        buildExpected sc = sc.expectedResult) ∧
    (∀ (name : Str) (steps : List Str) (h : steps ≠ []),
        (∀ st ∈ steps, thenStepTest st = false) →
        buildExpected ⟨name, steps, extractExpectedResult steps⟩ =
          trim (reStripAt stepLineRE (steps.getLast h))) := by
  refine ⟨?_, ?_, ?_⟩
  · intro sc k hk hmatch hafter
    have hidx := lastThenIdx_eq_some_of hk hmatch hafter
    exact ⟨by simp [convertStepsToTestRailFormat, hidx],
      by simp [buildExpected, hidx]⟩
  · intro sc hnone
    have hidx : lastThenIdx sc.steps = none := (lastThenIdx_none_iff _).mpr hnone
    exact ⟨by simp [convertStepsToTestRailFormat, hidx],
      by simp [buildExpected, hidx]⟩
  · intro name steps h hnone
    have hidx : lastThenIdx steps = none := (lastThenIdx_none_iff _).mpr hnone
    have hscan : eerScan steps.reverse = none :=
      eerScan_eq_none (fun x hx => hnone x (List.mem_reverse.mp hx))
    simp [buildExpected, hidx, extractExpectedResult, hscan,
      List.getLast?_eq_getLast steps h]

/-- C2 witness: the split applied to a concrete two-step record whose
last then-step sits at index 1. -/
theorem C2_amended_witness :
    convertStepsToTestRailFormat ⟨"T".data, ["When a".data, "Then b".data], "b".data⟩ =
      [⟨"When a".data, []⟩] ∧
    buildExpected ⟨"T".data, ["When a".data, "Then b".data], "b".data⟩ = "Then b".data :=
  C2_amended.1 ⟨"T".data, ["When a".data, "Then b".data], "b".data⟩ 1 (by decide)
    (by decide) (by decide)

theorem getLast?_some_mem {α : Type} {l : List α} {a : α} (h : l.getLast? = some a) :
    a ∈ l := by
  induction l with
  | nil => exact Option.noConfusion h
  | cons x rest ih =>
    cases rest with
    | nil =>
      simp only [List.getLast?_singleton, Option.some.injEq] at h
      simp [h]
    | cons y t =>
      rw [List.getLast?_cons_cons] at h
      exact List.mem_cons_of_mem x (ih h)

theorem getLast?_cons_of_some {α : Type} {l : List α} {v : α} (a : α)
    (h : l.getLast? = some v) : (a :: l).getLast? = some v := by
  cases l with
  | nil => exact Option.noConfusion h
  | cons y t => rw [List.getLast?_cons_cons]; exact h

theorem mapGetTC_cons (k0 : Str) (v0 : TestRailTestCaseResponse)
    (rest : List (Str × TestRailTestCaseResponse)) (q : Str) :
    mapGetTC ((k0, v0) :: rest) q = if k0 = q then some v0 else mapGetTC rest q := by
  by_cases h : k0 = q
  · simp [mapGetTC, List.find?, h]
  · simp [mapGetTC, List.find?, h]

theorem mapGetTC_mapSetTC (m : List (Str × TestRailTestCaseResponse)) (k : Str)
    (v : TestRailTestCaseResponse) (q : Str) :
    mapGetTC (mapSetTC m k v) q = if q = k then some v else mapGetTC m q := by
  induction m with
  | nil =>
    rw [mapSetTC, mapGetTC_cons]
    by_cases h : q = k
    · have h1 : k = q := h.symm
      simp only [if_pos h, if_pos h1]
    · have h2 : ¬ k = q := fun hh => h hh.symm
      simp only [if_neg h, if_neg h2]
  | cons p rest ih =>
    obtain ⟨k0, v0⟩ := p
    rw [mapSetTC]
    by_cases h0 : k0 = k
    · rw [if_pos h0]
      subst h0
      rw [mapGetTC_cons, mapGetTC_cons]
      by_cases hq : k0 = q
      · have hq2 : q = k0 := hq.symm
        simp only [if_pos hq, if_pos hq2]
      · have h2 : ¬ q = k0 := fun hh => hq hh.symm
        simp only [if_neg hq, if_neg h2]
    · rw [if_neg h0]
      rw [mapGetTC_cons, mapGetTC_cons, ih]
      by_cases hq : k0 = q
      · have h2 : ¬ q = k := fun hh => h0 (hq.trans hh)
        simp only [if_pos hq, if_neg h2]
      · by_cases hqk : q = k
        · simp only [if_neg hq, if_pos hqk]
        · simp only [if_neg hq, if_neg hqk]

theorem filter_cons_pos {α : Type} {p : α → Bool} {x : α} (l : List α)
    (h : p x = true) : List.filter p (x :: l) = x :: List.filter p l := by
  simp [List.filter_cons, h]

theorem filter_cons_neg {α : Type} {p : α → Bool} {x : α} (l : List α)
    (h : p x = false) : List.filter p (x :: l) = List.filter p l := by
  simp [List.filter_cons, h]

theorem buildCasesMap_fold_get :
    ∀ (l : List TestRailTestCaseResponse) (m : List (Str × TestRailTestCaseResponse)) (k : Str),
      mapGetTC (l.foldl (fun m tc => mapSetTC m (normKey tc.title) tc) m) k =
        (match (l.filter (fun tc => normKey tc.title = k)).getLast? with
         | some v => some v
         | none => mapGetTC m k) := by
  intro l
  induction l with
  | nil => intro m k; simp
  | cons tc l ih =>
    intro m k
    rw [List.foldl_cons, ih]
    by_cases hk : normKey tc.title = k
    · rw [filter_cons_pos l (by simpa using hk)]
      cases hfl : (l.filter (fun tc => normKey tc.title = k)).getLast? with
      | some v => rw [getLast?_cons_of_some tc hfl]
      | none =>
        have hnil : l.filter (fun tc => normKey tc.title = k) = [] :=
          List.getLast?_eq_none.mp hfl
        rw [hnil, List.getLast?_singleton]
        show mapGetTC (mapSetTC m (normKey tc.title) tc) k = some tc
        rw [mapGetTC_mapSetTC, if_pos hk.symm]
    · rw [filter_cons_neg l (by simpa using hk)]
      cases hfl : (l.filter (fun tc => normKey tc.title = k)).getLast? with
      | some v => rfl
      | none =>
        show mapGetTC (mapSetTC m (normKey tc.title) tc) k = mapGetTC m k
        rw [mapGetTC_mapSetTC, if_neg (fun hh => hk hh.symm)]

/-- The title lookup returns the managed case inserted last among those
sharing the normalized title — later fetch positions win. -/
theorem buildCasesMap_get (l : List TestRailTestCaseResponse) (k : Str) :
    mapGetTC (buildCasesMap l) k =
      (l.filter (fun tc => normKey tc.title = k)).getLast? := by
  rw [buildCasesMap, buildCasesMap_fold_get]
  cases hfl : (l.filter (fun tc => normKey tc.title = k)).getLast? with
  | some v => rfl
  | none => simp [mapGetTC]

theorem buildCasesMap_get_mem {l : List TestRailTestCaseResponse} {k : Str}
    {v : TestRailTestCaseResponse} (h : mapGetTC (buildCasesMap l) k = some v) :
    v ∈ l ∧ normKey v.title = k := by
  rw [buildCasesMap_get] at h
  have hv := List.mem_filter.mp (getLast?_some_mem h)
  exact ⟨hv.1, by simpa using hv.2⟩

theorem buildCasesMap_get_isSome {l : List TestRailTestCaseResponse} {k : Str}
    {tc : TestRailTestCaseResponse} (htc : tc ∈ l) (hk : normKey tc.title = k) :
    ∃ v, mapGetTC (buildCasesMap l) k = some v := by
  rw [buildCasesMap_get]
  cases hfl : (l.filter (fun tc => normKey tc.title = k)).getLast? with
  | some v => exact ⟨v, rfl⟩
  | none =>
    have hnil := List.getLast?_eq_none.mp hfl
    have : tc ∈ l.filter (fun tc => normKey tc.title = k) :=
      List.mem_filter.mpr ⟨htc, by simpa using hk⟩
    rw [hnil] at this
    exact absurd this (List.not_mem_nil tc)

theorem mem_managedCases {jiraKey : Str} {cases : List TestRailTestCaseResponse}
    {tc : TestRailTestCaseResponse} :
    tc ∈ managedCases jiraKey cases ↔ tc ∈ cases ∧ jsIncludes (refsOf tc) jiraKey = true := by
  rw [managedCases, List.mem_filter]

/-- C3: if the store snapshot already holds, for every parsed scenario,
a case with exactly that title and a back-reference containing the
ticket key, and every managed case corresponds to some scenario, then
the plan computed by a second run contains zero creates and zero
deletes — every scenario yields an update, one action per scenario. -/
theorem C3_idempotent (jiraKey : Str) (ticket : JiraTicket) (sectionId : Int)
    (scenarios : List ParsedScenario) (existing : List TestRailTestCaseResponse)
    (h1 : ∀ sc ∈ scenarios, ∃ tc, tc ∈ existing ∧ tc.title = sc.name ∧
        jsIncludes (refsOf tc) jiraKey = true)
    (h2 : ∀ tc ∈ existing, jsIncludes (refsOf tc) jiraKey = true →
        ∃ sc ∈ scenarios, normKey tc.title = normKey sc.name) :
    (∀ a ∈ planActions jiraKey ticket sectionId scenarios existing, a.isCreate = false) ∧
    planDeletes jiraKey scenarios existing = [] ∧
    (planActions jiraKey ticket sectionId scenarios existing).length = scenarios.length := by
  refine ⟨?_, ?_, by simp [planActions]⟩
  · intro a ha
    rw [planActions, List.mem_map] at ha
    obtain ⟨sc, hsc, rfl⟩ := ha
    obtain ⟨tc, htc, htitle, hrefs⟩ := h1 sc hsc
    have hman : tc ∈ managedCases jiraKey existing := mem_managedCases.mpr ⟨htc, hrefs⟩
    obtain ⟨v, hv⟩ := buildCasesMap_get_isSome hman (by rw [htitle])
    rw [scenarioAction, hv]
    rfl
  · rw [planDeletes, toDeleteList, List.filter_eq_nil]
    intro tc htc
    obtain ⟨htc', hrefs⟩ := mem_managedCases.mp htc
    obtain ⟨sc, hsc, hkey⟩ := h2 tc htc' hrefs
    have hmem : normKey sc.name ∈ scenarioTitleSet scenarios :=
      List.mem_map.mpr ⟨sc, hsc, rfl⟩
    rw [← hkey] at hmem
    have hc : (scenarioTitleSet scenarios).contains (normKey tc.title) = true :=
      List.elem_iff.mpr hmem
    simp [hc]
    exact hmem

/-- C3 witness: a concrete second run over a matching snapshot. -/
theorem C3_idempotent_witness :
    (∀ a ∈ planActions "K-1".data ⟨"K-1".data, [], [], []⟩ 9
        [⟨"Login".data, ["When a".data], "a".data⟩]
        [⟨31, "Login".data, some "K-1".data⟩], a.isCreate = false) ∧
    planDeletes "K-1".data [⟨"Login".data, ["When a".data], "a".data⟩]
        [⟨31, "Login".data, some "K-1".data⟩] = [] ∧
    (planActions "K-1".data ⟨"K-1".data, [], [], []⟩ 9
        [⟨"Login".data, ["When a".data], "a".data⟩]
        [⟨31, "Login".data, some "K-1".data⟩]).length = 1 :=
  C3_idempotent "K-1".data ⟨"K-1".data, [], [], []⟩ 9
    [⟨"Login".data, ["When a".data], "a".data⟩]
    [⟨31, "Login".data, some "K-1".data⟩]
    (by intro sc hsc
        rw [List.mem_singleton] at hsc
        subst hsc
        exact ⟨⟨31, "Login".data, some "K-1".data⟩, by decide, by decide, by decide⟩)
    (by intro tc htc hrefs
        rw [List.mem_singleton] at htc
        subst htc
        exact ⟨⟨"Login".data, ["When a".data], "a".data⟩, by decide, by decide⟩)

/-- C4: a case in the fetched snapshot whose back-reference does not
contain the ticket key as a substring is never selected for deletion and
is never the target of an update, whatever the parsed scenarios are. -/
theorem C4_ownership (jiraKey : Str) (ticket : JiraTicket) (sectionId : Int)
    (scenarios : List ParsedScenario) (existing : List TestRailTestCaseResponse)
    (tc : TestRailTestCaseResponse) (htc : tc ∈ existing)
    (h : jsIncludes (refsOf tc) jiraKey = false) :
    tc ∉ planDeletes jiraKey scenarios existing ∧
    ∀ a ∈ planActions jiraKey ticket sectionId scenarios existing,
      a.target? ≠ some tc := by
  constructor
  · intro hdel
    rw [planDeletes, toDeleteList] at hdel
    have := (mem_managedCases.mp (List.mem_filter.mp hdel).1).2
    rw [h] at this
    exact Bool.noConfusion this
  · intro a ha htarget
    rw [planActions, List.mem_map] at ha
    obtain ⟨sc, hsc, rfl⟩ := ha
    rw [scenarioAction] at htarget
    cases hget : mapGetTC (buildCasesMap (managedCases jiraKey existing))
        (normKey sc.name) with
    | none => rw [hget] at htarget; exact Option.noConfusion htarget
    | some v =>
      rw [hget] at htarget
      simp only [CaseAction.target?, Option.some.injEq] at htarget
      subst htarget
      have := (mem_managedCases.mp (buildCasesMap_get_mem hget).1).2
      rw [h] at this
      exact Bool.noConfusion this

/-- C4 witness: an unmanaged case survives a run that deletes nothing
else. -/
theorem C4_ownership_witness :
    (⟨7, "Stale".data, some "OTHER-9".data⟩ : TestRailTestCaseResponse) ∉
      planDeletes "K-1".data [] [⟨7, "Stale".data, some "OTHER-9".data⟩] ∧
    ∀ a ∈ planActions "K-1".data ⟨"K-1".data, [], [], []⟩ 9 []
        [⟨7, "Stale".data, some "OTHER-9".data⟩],
      a.target? ≠ some ⟨7, "Stale".data, some "OTHER-9".data⟩ :=
  C4_ownership "K-1".data ⟨"K-1".data, [], [], []⟩ 9 []
    [⟨7, "Stale".data, some "OTHER-9".data⟩]
    ⟨7, "Stale".data, some "OTHER-9".data⟩ (by decide) (by decide)

/-- C10: when the managed snapshot holds two cases (both back-referencing
the ticket) with the same normalized title and no later case shares it,
the title lookup retains only the later one: every scenario with that
normalized title targets the later case, no action ever targets the
earlier case, and as long as some scenario bears the title neither case
is deleted. -/
theorem C10_duplicate_titles (jiraKey : Str) (ticket : JiraTicket) (sectionId : Int)
    (scenarios : List ParsedScenario) (existing : List TestRailTestCaseResponse)
    (tc1 tc2 : TestRailTestCaseResponse)
    (l1 l2 l3 : List TestRailTestCaseResponse) (t : Str)
    (hdecomp : managedCases jiraKey existing = l1 ++ tc1 :: (l2 ++ tc2 :: l3))
    (h1 : normKey tc1.title = t) (h2 : normKey tc2.title = t)
    (h3 : ∀ tc ∈ l3, ¬ normKey tc.title = t)
    (hne : tc1 ≠ tc2)
    (hsc : ∃ sc ∈ scenarios, normKey sc.name = t) :
    mapGetTC (buildCasesMap (managedCases jiraKey existing)) t = some tc2 ∧
    (∀ sc : ParsedScenario, normKey sc.name = t →
      scenarioAction (buildCasesMap (managedCases jiraKey existing)) ticket sectionId sc =
        .update tc2 (buildTestCase ticket sectionId sc)) ∧
    (∀ sc : ParsedScenario,
      (scenarioAction (buildCasesMap (managedCases jiraKey existing)) ticket sectionId
        sc).target? ≠ some tc1) ∧
    tc1 ∉ planDeletes jiraKey scenarios existing ∧
    tc2 ∉ planDeletes jiraKey scenarios existing := by
  have hget : mapGetTC (buildCasesMap (managedCases jiraKey existing)) t = some tc2 := by
    rw [buildCasesMap_get, hdecomp, List.filter_append,
      filter_cons_pos _ (by simpa using h1), List.filter_append,
      filter_cons_pos _ (by simpa using h2),
      show (l3.filter (fun tc => normKey tc.title = t)) = [] from
        List.filter_eq_nil.mpr (fun tc htc => by simpa using h3 tc htc)]
    have hshape :
        List.filter (fun tc => decide (normKey tc.title = t)) l1 ++
            tc1 :: (List.filter (fun tc => decide (normKey tc.title = t)) l2 ++ tc2 :: []) =
          (List.filter (fun tc => decide (normKey tc.title = t)) l1 ++
            tc1 :: List.filter (fun tc => decide (normKey tc.title = t)) l2) ++ [tc2] := by
      simp
    rw [hshape, List.getLast?_concat]
  have htset : (scenarioTitleSet scenarios).contains t = true := by
    obtain ⟨sc, hsc', hn⟩ := hsc
    have : normKey sc.name ∈ scenarioTitleSet scenarios := List.mem_map.mpr ⟨sc, hsc', rfl⟩
    rw [hn] at this
    exact List.elem_iff.mpr this
  have hnodel : ∀ tc : TestRailTestCaseResponse, normKey tc.title = t →
      tc ∉ planDeletes jiraKey scenarios existing := by
    intro tc htitle hdel
    rw [planDeletes, toDeleteList] at hdel
    have hpred := (List.mem_filter.mp hdel).2
    rw [htitle] at hpred
    simp only [htset, decide_eq_true_eq] at hpred
    exact hpred trivial
  refine ⟨hget, ?_, ?_, hnodel tc1 h1, hnodel tc2 h2⟩
  · intro sc hn
    rw [scenarioAction, hn, hget]
  · intro sc htarget
    rw [scenarioAction] at htarget
    cases hlook : mapGetTC (buildCasesMap (managedCases jiraKey existing))
        (normKey sc.name) with
    | none => rw [hlook] at htarget; exact Option.noConfusion htarget
    | some v =>
      rw [hlook] at htarget
      simp only [CaseAction.target?, Option.some.injEq] at htarget
      subst htarget
      have hv := (buildCasesMap_get_mem hlook).2
      rw [h1] at hv
      rw [hv] at hget
      rw [hlook] at hget
      exact hne (Option.some.inj hget)

/-- C10 witness: two managed duplicates "A" and " a " — the later one
wins the lookup and neither is deleted. -/
theorem C10_duplicate_titles_witness :
    mapGetTC (buildCasesMap (managedCases "K".data
        [⟨1, "A".data, some "K".data⟩, ⟨2, " a ".data, some "K".data⟩])) "a".data =
      some ⟨2, " a ".data, some "K".data⟩ ∧
    (⟨1, "A".data, some "K".data⟩ : TestRailTestCaseResponse) ∉
      planDeletes "K".data [⟨"A".data, ["x".data], "x".data⟩]
        [⟨1, "A".data, some "K".data⟩, ⟨2, " a ".data, some "K".data⟩] := by
  have h := C10_duplicate_titles "K".data ⟨"K".data, [], [], []⟩ 1
    [⟨"A".data, ["x".data], "x".data⟩]
    [⟨1, "A".data, some "K".data⟩, ⟨2, " a ".data, some "K".data⟩]
    ⟨1, "A".data, some "K".data⟩ ⟨2, " a ".data, some "K".data⟩
    [] [] [] "a".data (by decide) (by decide) (by decide) (by decide) (by decide)
    ⟨⟨"A".data, ["x".data], "x".data⟩, by decide, by decide⟩
  exact ⟨h.1, h.2.2.2.1⟩

theorem processScenario_step (oracle : Oracle) (ticket : JiraTicket) (sectionId : Int)
    (map : List (Str × TestRailTestCaseResponse)) (res : SyncResult) (st : ExecState)
    (sc : ParsedScenario) :
    (∀ x ∈ st.calls,
      x ∈ (processScenario oracle false ticket sectionId map (res, st) sc).2.calls) ∧
    (∀ e ∈ res.errors,
      e ∈ (processScenario oracle false ticket sectionId map (res, st) sc).1.errors) ∧
    scenarioCall map ticket sectionId sc ∈
      (processScenario oracle false ticket sectionId map (res, st) sc).2.calls ∧
    (∀ msg, oracle (scenarioCall map ticket sectionId sc) = some msg →
      syncFailMsg sc.name msg ∈
        (processScenario oracle false ticket sectionId map (res, st) sc).1.errors) ∧
    ((processScenario oracle false ticket sectionId map (res, st) sc).1.scenariosCreated +
      (processScenario oracle false ticket sectionId map (res, st) sc).1.scenariosUpdated +
      (processScenario oracle false ticket sectionId map (res, st) sc).1.scenariosSkipped =
      res.scenariosCreated + res.scenariosUpdated + res.scenariosSkipped + 1) := by
  cases haction : scenarioAction map ticket sectionId sc with
  | update ex tc =>
    cases horacle : oracle (StoreCall.updateCase ex.id tc) with
    | none =>
      simp only [processScenario, scenarioCall, haction, callUpdateCase, logCall, horacle,
        Bool.false_eq_true, if_false]
      refine ⟨?_, ?_, ?_, ?_, by omega⟩
      · intro x hx; exact List.mem_append_left _ hx
      · intro e he; exact he
      · exact List.mem_append_right _ (List.mem_singleton.mpr rfl)
      · intro msg hmsg; exact Option.noConfusion hmsg
    | some msg0 =>
      simp only [processScenario, scenarioCall, haction, callUpdateCase, logCall, horacle,
        Bool.false_eq_true, if_false]
      refine ⟨?_, ?_, ?_, ?_, by omega⟩
      · intro x hx; exact List.mem_append_left _ hx
      · intro e he; exact List.mem_append_left _ he
      · exact List.mem_append_right _ (List.mem_singleton.mpr rfl)
      · intro msg hmsg
        cases Option.some.inj hmsg
        exact List.mem_append_right _ (List.mem_singleton.mpr rfl)
  | create tc =>
    cases horacle : oracle (StoreCall.createCase sectionId tc) with
    | none =>
      simp only [processScenario, scenarioCall, haction, callCreateCase, logCall, horacle,
        Bool.false_eq_true, if_false]
      refine ⟨?_, ?_, ?_, ?_, by omega⟩
      · intro x hx; exact List.mem_append_left _ hx
      · intro e he; exact he
      · exact List.mem_append_right _ (List.mem_singleton.mpr rfl)
      · intro msg hmsg; exact Option.noConfusion hmsg
    | some msg0 =>
      simp only [processScenario, scenarioCall, haction, callCreateCase, logCall, horacle,
        Bool.false_eq_true, if_false]
      refine ⟨?_, ?_, ?_, ?_, by omega⟩
      · intro x hx; exact List.mem_append_left _ hx
      · intro e he; exact List.mem_append_left _ he
      · exact List.mem_append_right _ (List.mem_singleton.mpr rfl)
      · intro msg hmsg
        cases Option.some.inj hmsg
        exact List.mem_append_right _ (List.mem_singleton.mpr rfl)

theorem processScenarios_fold (oracle : Oracle) (ticket : JiraTicket) (sectionId : Int)
    (map : List (Str × TestRailTestCaseResponse)) :
    ∀ (scenarios : List ParsedScenario) (res : SyncResult) (st : ExecState),
      (∀ x ∈ st.calls,
        x ∈ (scenarios.foldl (processScenario oracle false ticket sectionId map) (res, st)).2.calls) ∧
      (∀ e ∈ res.errors,
        e ∈ (scenarios.foldl (processScenario oracle false ticket sectionId map) (res, st)).1.errors) ∧
      (∀ sc ∈ scenarios, scenarioCall map ticket sectionId sc ∈
        (scenarios.foldl (processScenario oracle false ticket sectionId map) (res, st)).2.calls) ∧
      (∀ sc ∈ scenarios, ∀ msg, oracle (scenarioCall map ticket sectionId sc) = some msg →
        syncFailMsg sc.name msg ∈
          (scenarios.foldl (processScenario oracle false ticket sectionId map) (res, st)).1.errors) ∧
      ((scenarios.foldl (processScenario oracle false ticket sectionId map) (res, st)).1.scenariosCreated +
        (scenarios.foldl (processScenario oracle false ticket sectionId map) (res, st)).1.scenariosUpdated +
        (scenarios.foldl (processScenario oracle false ticket sectionId map) (res, st)).1.scenariosSkipped =
        res.scenariosCreated + res.scenariosUpdated + res.scenariosSkipped + scenarios.length) := by
  intro scenarios
  induction scenarios with
  | nil =>
    intro res st
    exact ⟨fun x hx => hx, fun e he => he, by simp, by simp, by simp⟩
  | cons sc scenarios ih =>
    intro res st
    rw [List.foldl_cons]
    obtain ⟨s1, s2, s3, s4, s5⟩ := processScenario_step oracle ticket sectionId map res st sc
    rcases hps : processScenario oracle false ticket sectionId map (res, st) sc with ⟨res', st'⟩
    rw [hps] at s1 s2 s3 s4 s5
    dsimp only at s1 s2 s3 s4 s5
    obtain ⟨i1, i2, i3, i4, i5⟩ := ih res' st'
    refine ⟨?_, ?_, ?_, ?_, ?_⟩
    · intro x hx; exact i1 x (s1 x hx)
    · intro e he; exact i2 e (s2 e he)
    · intro sc' hsc'
      rcases List.mem_cons.mp hsc' with rfl | hmem
      · exact i1 _ s3
      · exact i3 sc' hmem
    · intro sc' hsc' msg hmsg
      rcases List.mem_cons.mp hsc' with rfl | hmem
      · exact i2 _ (s4 msg hmsg)
      · exact i4 sc' hmem msg hmsg
    · rw [List.length_cons]
      omega

theorem processDelete_step (oracle : Oracle) (res : SyncResult) (st : ExecState)
    (tc : TestRailTestCaseResponse) :
    (∀ x ∈ st.calls, x ∈ (processDelete oracle false (res, st) tc).2.calls) ∧
    (∀ e ∈ res.errors, e ∈ (processDelete oracle false (res, st) tc).1.errors) ∧
    StoreCall.deleteCase tc.id ∈ (processDelete oracle false (res, st) tc).2.calls ∧
    (∀ msg, oracle (StoreCall.deleteCase tc.id) = some msg →
      deleteFailMsg tc msg ∈ (processDelete oracle false (res, st) tc).1.errors) ∧
    ((processDelete oracle false (res, st) tc).1.scenariosDeleted +
      (processDelete oracle false (res, st) tc).1.scenariosSkipped =
      res.scenariosDeleted + res.scenariosSkipped + 1) := by
  cases horacle : oracle (StoreCall.deleteCase tc.id) with
  | none =>
    simp only [processDelete, callDeleteCase, logCall, horacle, Bool.false_eq_true, if_false]
    refine ⟨?_, ?_, ?_, ?_, by omega⟩
    · intro x hx; exact List.mem_append_left _ hx
    · intro e he; exact he
    · exact List.mem_append_right _ (List.mem_singleton.mpr rfl)
    · intro msg hmsg; exact Option.noConfusion hmsg
  | some msg0 =>
    simp only [processDelete, callDeleteCase, logCall, horacle, Bool.false_eq_true, if_false]
    refine ⟨?_, ?_, ?_, ?_, by omega⟩
    · intro x hx; exact List.mem_append_left _ hx
    · intro e he; exact List.mem_append_left _ he
    · exact List.mem_append_right _ (List.mem_singleton.mpr rfl)
    · intro msg hmsg
      cases Option.some.inj hmsg
      exact List.mem_append_right _ (List.mem_singleton.mpr rfl)

theorem processDeletes_fold (oracle : Oracle) :
    ∀ (dels : List TestRailTestCaseResponse) (res : SyncResult) (st : ExecState),
      (∀ x ∈ st.calls,
        x ∈ (dels.foldl (processDelete oracle false) (res, st)).2.calls) ∧
      (∀ e ∈ res.errors,
        e ∈ (dels.foldl (processDelete oracle false) (res, st)).1.errors) ∧
      (∀ tc ∈ dels, StoreCall.deleteCase tc.id ∈
        (dels.foldl (processDelete oracle false) (res, st)).2.calls) ∧
      (∀ tc ∈ dels, ∀ msg, oracle (StoreCall.deleteCase tc.id) = some msg →
        deleteFailMsg tc msg ∈ (dels.foldl (processDelete oracle false) (res, st)).1.errors) ∧
      ((dels.foldl (processDelete oracle false) (res, st)).1.scenariosDeleted +
        (dels.foldl (processDelete oracle false) (res, st)).1.scenariosSkipped =
        res.scenariosDeleted + res.scenariosSkipped + dels.length) := by
  intro dels
  induction dels with
  | nil =>
    intro res st
    exact ⟨fun x hx => hx, fun e he => he, by simp, by simp, by simp⟩
  | cons tc dels ih =>
    intro res st
    rw [List.foldl_cons]
    obtain ⟨s1, s2, s3, s4, s5⟩ := processDelete_step oracle res st tc
    rcases hps : processDelete oracle false (res, st) tc with ⟨res', st'⟩
    rw [hps] at s1 s2 s3 s4 s5
    dsimp only at s1 s2 s3 s4 s5
    obtain ⟨i1, i2, i3, i4, i5⟩ := ih res' st'
    refine ⟨?_, ?_, ?_, ?_, ?_⟩
    · intro x hx; exact i1 x (s1 x hx)
    · intro e he; exact i2 e (s2 e he)
    · intro tc' htc'
      rcases List.mem_cons.mp htc' with rfl | hmem
      · exact i1 _ s3
      · exact i3 tc' hmem
    · intro tc' htc' msg hmsg
      rcases List.mem_cons.mp htc' with rfl | hmem
      · exact i2 _ (s4 msg hmsg)
      · exact i4 tc' hmem msg hmsg
    · rw [List.length_cons]
      omega

/-- C6: per-action failure isolation in the non-dry-run create/update
and delete phases.  Whatever the failure oracle does, every scenario's
store call and every delete call is attempted (appears in the call log),
a failing action appends an error naming the offending scenario (or
case) and bumps the skipped counter, and every scenario (and every
delete) contributes exactly one counter tick — so no single failure
prevents the remaining actions, and the accumulated summary is always
produced. -/
theorem C6_failure_isolation :
    (∀ (oracle : Oracle) (ticket : JiraTicket) (sectionId : Int)
        (map : List (Str × TestRailTestCaseResponse)) (scenarios : List ParsedScenario)
        (res : SyncResult) (st : ExecState),
      (∀ sc ∈ scenarios, scenarioCall map ticket sectionId sc ∈
        (scenarios.foldl (processScenario oracle false ticket sectionId map) (res, st)).2.calls) ∧
      (∀ sc ∈ scenarios, ∀ msg, oracle (scenarioCall map ticket sectionId sc) = some msg →
        syncFailMsg sc.name msg ∈
          (scenarios.foldl (processScenario oracle false ticket sectionId map) (res, st)).1.errors) ∧
      ((scenarios.foldl (processScenario oracle false ticket sectionId map) (res, st)).1.scenariosCreated +
        (scenarios.foldl (processScenario oracle false ticket sectionId map) (res, st)).1.scenariosUpdated +
        (scenarios.foldl (processScenario oracle false ticket sectionId map) (res, st)).1.scenariosSkipped =
        res.scenariosCreated + res.scenariosUpdated + res.scenariosSkipped + scenarios.length)) ∧
    (∀ (oracle : Oracle) (dels : List TestRailTestCaseResponse)
        (res : SyncResult) (st : ExecState),
      (∀ tc ∈ dels, StoreCall.deleteCase tc.id ∈
        (dels.foldl (processDelete oracle false) (res, st)).2.calls) ∧
      (∀ tc ∈ dels, ∀ msg, oracle (StoreCall.deleteCase tc.id) = some msg →
        deleteFailMsg tc msg ∈
          (dels.foldl (processDelete oracle false) (res, st)).1.errors) ∧
      ((dels.foldl (processDelete oracle false) (res, st)).1.scenariosDeleted +
        (dels.foldl (processDelete oracle false) (res, st)).1.scenariosSkipped =
        res.scenariosDeleted + res.scenariosSkipped + dels.length)) := by
  constructor
  · intro oracle ticket sectionId map scenarios res st
    obtain ⟨-, -, h3, h4, h5⟩ := processScenarios_fold oracle ticket sectionId map scenarios res st
    exact ⟨h3, h4, h5⟩
  · intro oracle dels res st
    obtain ⟨-, -, h3, h4, h5⟩ := processDeletes_fold oracle dels res st
    exact ⟨h3, h4, h5⟩

/-- C6 witness: a run whose only case action fails still logs the
attempt and records the scenario-naming error. -/
theorem C6_failure_isolation_witness :
    scenarioCall [] ⟨"K".data, [], [], []⟩ 1 ⟨"A".data, ["x".data], "x".data⟩ ∈
      (([⟨"A".data, ["x".data], "x".data⟩] : List ParsedScenario).foldl
        (processScenario (fun _ => some "boom".data) false ⟨"K".data, [], [], []⟩ 1 [])
        (emptyResult, ⟨⟨[], [], [], 0⟩, []⟩)).2.calls ∧
    syncFailMsg "A".data "boom".data ∈
      (([⟨"A".data, ["x".data], "x".data⟩] : List ParsedScenario).foldl
        (processScenario (fun _ => some "boom".data) false ⟨"K".data, [], [], []⟩ 1 [])
        (emptyResult, ⟨⟨[], [], [], 0⟩, []⟩)).1.errors := by
  have h := C6_failure_isolation.1 (fun _ => some "boom".data) ⟨"K".data, [], [], []⟩ 1 []
    [⟨"A".data, ["x".data], "x".data⟩] emptyResult ⟨⟨[], [], [], 0⟩, []⟩
  exact ⟨h.1 ⟨"A".data, ["x".data], "x".data⟩ (by decide),
    h.2.1 ⟨"A".data, ["x".data], "x".data⟩ (by decide) "boom".data rfl⟩

theorem cshLoop_two_empty (oracle : Oracle) (suiteId : Int) (p1 p2 : Str)
    (suites : List TestRailSuite) (sections : List TestRailSection)
    (cases0 : List TestRailTestCaseResponse) (n : Int) (calls : List StoreCall)
    (hNoFail : ∀ c, oracle c = none) :
    cshLoop oracle suiteId false [p1, p2] [] none ⟨⟨suites, sections, cases0, n⟩, calls⟩ =
      (.ok ⟨n + 1, p2, suiteId, some n⟩,
       [⟨n, p1, suiteId, none⟩, ⟨n + 1, p2, suiteId, some n⟩],
       ⟨⟨suites, (sections ++ [⟨n, p1, suiteId, none⟩]) ++ [⟨n + 1, p2, suiteId, some n⟩],
         cases0, n + 1 + 1⟩,
        (calls ++ [.createSection suiteId p1 none]) ++
          [.createSection suiteId p2 (some n)]⟩) := by
  have hne : ¬ (n = n + 1) := by omega
  have hfA : List.find? (fun s => (normKey s.name == normKey p2) && (s.parent_id == some n))
      [(⟨n, p1, suiteId, none⟩ : TestRailSection)] = none := by
    rw [List.find?_cons_of_neg _ (by simp), List.find?_nil]
  have hfB : List.find? (fun s => decide (s.id = n + 1))
      [(⟨n, p1, suiteId, none⟩ : TestRailSection), ⟨n + 1, p2, suiteId, some n⟩] =
      some ⟨n + 1, p2, suiteId, some n⟩ := by
    rw [List.find?_cons_of_neg _ (by simp [hne]), List.find?_cons_of_pos _ (by simp)]
  simp only [cshLoop, List.find?_nil, Bool.false_eq_true, if_false, callCreateSection,
    logCall, hNoFail, List.nil_append, List.singleton_append, List.isEmpty_cons,
    List.isEmpty_nil, if_true, hfA, hfB]

theorem findOrCreatePath_two (oracle : Oracle) (suiteId : Int) (p1n p1o p2n p2o : Str)
    (secs : List TestRailSection) (suites : List TestRailSuite)
    (sections : List TestRailSection) (cases0 : List TestRailTestCaseResponse)
    (n : Int) (calls : List StoreCall)
    (hNoFail : ∀ c, oracle c = none)
    (h1 : ∀ s ∈ secs, ¬ normKey s.name = p1n)
    (h2 : ∀ s ∈ secs, ¬ normKey s.name = p2n)
    (h12 : ¬ normKey p1o = p2n)
    (hn : ¬ (n = 0)) :
    findOrCreatePath oracle suiteId true false [(p1n, p1o), (p2n, p2o)] secs none
        ⟨⟨suites, sections, cases0, n⟩, calls⟩ =
      (.ok (some ⟨n + 1, p2o, suiteId, some n⟩),
       (secs ++ [⟨n, p1o, suiteId, none⟩]) ++ [⟨n + 1, p2o, suiteId, some n⟩],
       ⟨⟨suites, (sections ++ [⟨n, p1o, suiteId, none⟩]) ++ [⟨n + 1, p2o, suiteId, some n⟩],
         cases0, n + 1 + 1⟩,
        (calls ++ [.createSection suiteId p1o none]) ++
          [.createSection suiteId p2o (some n)]⟩) := by
  have hf1 : secs.find? (fun s => (normKey s.name == p1n) && parentFalsy s) = none :=
    List.find?_eq_none.mpr (fun x hx => by simp [h1 x hx])
  have hf2 : (secs ++ [(⟨n, p1o, suiteId, none⟩ : TestRailSection)]).find?
      (fun s => (normKey s.name == p2n) && (s.parent_id == some n)) = none :=
    List.find?_eq_none.mpr (fun x hx => by
      rcases List.mem_append.mp hx with hx | hx
      · simp [h2 x hx]
      · rw [List.mem_singleton] at hx
        subst hx
        simp [h12])
  simp only [findOrCreatePath, hf1, hf2, if_true, Bool.false_eq_true, if_false,
    callCreateSection, logCall, hNoFail, normParent, hn, List.isEmpty_cons,
    List.isEmpty_nil, List.singleton_append]

/-- C8: resolving the section path "Parent/Child" against a suite
containing neither section, with section creation enabled and dry-run
off, issues exactly two section-create calls — Parent first with no
parent id, then Child with its parent set to the id returned for
Parent — and the resolved section id carried to the case operations is
Child's id.  This covers both the empty-suite path (via
`createSectionHierarchy`) and the populated-suite path (via the
hierarchical walk). -/
theorem C8_hierarchical_creation (oracle : Oracle) (env : RunEnv) (sid : Int)
    (suites : List TestRailSuite) (sections : List TestRailSection)
    (cases0 : List TestRailTestCaseResponse) (n : Int) (calls : List StoreCall)
    (hNoFail : ∀ c, oracle c = none)
    (hname : env.sectionName = some ("Parent/Child").data)
    (hdry : env.dryRun = false)
    (hcreate : env.createSectionIfMissing = true)
    (hsid : ¬ sid = 0)
    (hnext : 0 < n)
    (hsections : ∀ s ∈ sections,
      ¬ normKey s.name = ("parent").data ∧ ¬ normKey s.name = ("child").data) :
    resolveSectionPhase oracle env (some sid) ⟨⟨suites, sections, cases0, n⟩, calls⟩ =
      (.ok (n + 1, some sid),
       ⟨⟨suites,
         (sections ++ [⟨n, "Parent".data, sid, none⟩]) ++
           [⟨n + 1, "Child".data, sid, some n⟩],
         cases0, n + 1 + 1⟩,
        ((calls ++ [.getSections sid]) ++ [.createSection sid "Parent".data none]) ++
          [.createSection sid "Child".data (some n)]⟩) := by
  have ht : truthyId (some sid) = true := by simp [truthyId, hsid]
  have hts : truthyStr (some ("Parent/Child").data) = true := by decide
  have hn1 : ¬ (n + 1 = 0) := by omega
  have hnn : ¬ (n = 0) := by omega
  have hfalsy1 : idFalsy (some (n + 1)) = false := by simp [idFalsy, truthyId, hn1]
  have hparts : pathParts ("Parent/Child").data = ["Parent".data, "Child".data] := by decide
  have hnorm : normKey ("Parent/Child").data = ("parent/child").data := by decide
  have hparts2 : pathParts ("parent/child").data = ["parent".data, "child".data] := by decide
  have hlen2 : ((["parent".data, "child".data] : List Str).length = 1) = False := by simp
  have hzip : (["parent".data, "child".data] : List Str).zip
      ["Parent".data, "Child".data] = [("parent".data, "Parent".data),
        ("child".data, "Child".data)] := by decide
  rcases hsec : sections.filter (fun s => decide (s.suite_id = sid)) with - | ⟨s0, rest⟩
  · have hcsh := cshLoop_two_empty oracle sid "Parent".data "Child".data suites sections
      cases0 n (calls ++ [.getSections sid]) hNoFail
    simp only [resolveSectionPhase, ht, if_true, Option.getD_some, callGetSections,
      logCall, hNoFail, hsec, emptySectionsStep, List.isEmpty_nil, hcreate, hname, hts,
      and_self, hdry, Bool.false_eq_true, if_false, createSectionHierarchy, hparts,
      hcsh, hfalsy1, if_true]
  · have hsub : ∀ s, s ∈ (s0 :: rest) → s ∈ sections := by
      intro s hs
      have : s ∈ sections.filter (fun s => decide (s.suite_id = sid)) := by
        rw [hsec]; exact hs
      exact (List.mem_filter.mp this).1
    have hfp := findOrCreatePath_two oracle sid ("parent").data ("Parent").data
      ("child").data ("Child").data (s0 :: rest) suites sections cases0 n
      (calls ++ [.getSections sid]) hNoFail
      (fun s hs => (hsections s (hsub s hs)).1)
      (fun s hs => (hsections s (hsub s hs)).2)
      (by decide) hnn
    have hd1 : (decide ¬ sid = 0) = true := by simp [hsid]
    have hd2 : (decide ¬ False) = true := by decide
    have hd3 : (decide ¬ True) = false := by decide
    simp only [resolveSectionPhase, ht, if_true, Option.getD_some, callGetSections,
      logCall, hNoFail, hsec, emptySectionsStep, List.isEmpty_cons, Bool.false_eq_true,
      if_false, idFalsy, truthyId, Bool.not_false, findSelectedSection, hname, hts,
      Option.getD_some, hnorm, hparts, hparts2, hlen2, hzip, hfp, hfalsy1, hdry,
      hcreate, hn1, hd1, hd2, hd3]

def c8env : RunEnv :=
  ⟨"PROJ-1".data, none, none, some ("Parent/Child").data, false, none, false, true,
   ⟨"PROJ-1".data, "s".data, "d".data, "u".data⟩⟩

/-- Witness for C8: on an empty store with suite id 5 and section path "Parent/Child",
resolveSectionPhase creates the parent section (id 100, no parent) then the child
(id 101, parent 100) and resolves to the child's id. -/
theorem C8_hierarchical_creation_witness :
    resolveSectionPhase (fun _ => none) c8env (some 5) ⟨⟨[], [], [], 100⟩, []⟩ =
      (.ok (100 + 1, some 5),
       ⟨⟨[], ([] ++ [⟨100, "Parent".data, 5, none⟩]) ++
           [⟨100 + 1, "Child".data, 5, some 100⟩],
         [], 100 + 1 + 1⟩,
        (([] ++ [.getSections 5]) ++ [.createSection 5 "Parent".data none]) ++
          [.createSection 5 "Child".data (some 100)]⟩) :=
  C8_hierarchical_creation (fun _ => none) c8env 5 [] [] [] 100 []
    (fun _ => rfl) rfl rfl rfl (by decide) (by decide) (by intro s hs; cases hs)

/-! ## Dry-run lemmas (C9) -/

theorem findOrCreatePath_dry_state (oracle : Oracle) (sid : Int) (cim : Bool) :
    ∀ (parts : List (Str × Str)) (secs : List TestRailSection)
      (pid : Option Int) (st : ExecState),
      (findOrCreatePath oracle sid cim true parts secs pid st).2.2 = st := by
  intro parts
  induction parts with
  | nil => intro secs pid st; rfl
  | cons p rest ih =>
    intro secs pid st
    rcases p with ⟨pN, pO⟩
    simp only [findOrCreatePath]
    repeat' split
    all_goals first | rfl | exact ih _ _ _ | (exfalso; simp_all)

theorem noSelectedFallback_dry_state (oracle : Oracle) (env : RunEnv) (rsid : Int)
    (sn : Str) (secs : List TestRailSection) (st : ExecState)
    (hdry : env.dryRun = true) :
    (noSelectedFallback oracle env rsid sn secs st).2 = st := by
  simp only [noSelectedFallback, hdry]
  split
  · simp
  · rfl

theorem findSelectedSection_dry_state (oracle : Oracle) (env : RunEnv) (rsid : Int)
    (secs : List TestRailSection) (st : ExecState)
    (hdry : env.dryRun = true) :
    (findSelectedSection oracle env rsid secs st).2 = st := by
  simp only [findSelectedSection, hdry]
  split
  · split
    · split
      · rfl
      · exact noSelectedFallback_dry_state oracle env rsid _ secs st hdry
    · rcases hfp : findOrCreatePath oracle rsid env.createSectionIfMissing true
          ((pathParts (normKey (env.sectionName.getD []))).zip
            (pathParts (env.sectionName.getD []))) secs none st with ⟨r, secs2, st2⟩
      have hst2 := findOrCreatePath_dry_state oracle rsid env.createSectionIfMissing
        ((pathParts (normKey (env.sectionName.getD []))).zip
          (pathParts (env.sectionName.getD []))) secs none st
      rw [hfp] at hst2
      dsimp at hst2
      subst hst2
      rcases r with e | o
      · rfl
      · rcases o with - | s
        · exact noSelectedFallback_dry_state oracle env rsid _ secs _ hdry
        · rfl
  · rfl

theorem emptySectionsStep_dry_state (oracle : Oracle) (env : RunEnv) (rsid : Int)
    (secs0 : List TestRailSection) (st : ExecState)
    (hdry : env.dryRun = true) :
    (emptySectionsStep oracle env rsid secs0 st).2 = st := by
  simp only [emptySectionsStep, hdry]
  split
  · split
    · simp
    · rfl
  · rfl

theorem mem_append_nonmut {l1 l2 : List StoreCall}
    (h1 : ∀ c ∈ l1, c.isMutating = false) (h2 : ∀ c ∈ l2, c.isMutating = false) :
    ∀ c ∈ l1 ++ l2, c.isMutating = false := by
  intro c hc
  rcases List.mem_append.mp hc with h | h
  exacts [h1 c h, h2 c h]

theorem resolveSuitePhase_dry_extra (oracle : Oracle) (env : RunEnv) (st : ExecState)
    (hdry : env.dryRun = true) :
    ∃ extra, ((resolveSuitePhase oracle env st).2).calls = st.calls ++ extra ∧
      ∀ c ∈ extra, c.isMutating = false := by
  have hone : ∀ c ∈ [StoreCall.getSuites], c.isMutating = false := by
    intro c hc; simp at hc; subst hc; rfl
  have htwo : ∀ c ∈ [StoreCall.getSuites, StoreCall.getSuites], c.isMutating = false := by
    intro c hc; simp at hc; subst hc; rfl
  simp only [resolveSuitePhase, findSuiteByName, callGetSuites, logCall, hdry]
  split
  · cases horacle : oracle .getSuites with
    | some msg =>
      simp only [horacle]
      exact ⟨[.getSuites], rfl, hone⟩
    | none =>
      simp only [horacle]
      cases hfind : List.find?
          (fun s => decide (normSuite s.name = normSuite (env.suiteName.getD [])))
          st.store.suites with
      | some s =>
        simp only [hfind]
        exact ⟨[.getSuites], rfl, hone⟩
      | none =>
        simp only [hfind]
        split
        · rw [if_pos trivial]
          exact ⟨[.getSuites], rfl, hone⟩
        · exact ⟨[.getSuites, .getSuites], by simp, htwo⟩
  · exact ⟨[], by simp, by intro c hc; simp at hc⟩

theorem resolveSectionPhase_dry_extra (oracle : Oracle) (env : RunEnv)
    (rs : Option Int) (st : ExecState) (hdry : env.dryRun = true) :
    ∃ extra, ((resolveSectionPhase oracle env rs st).2).calls = st.calls ++ extra ∧
      ∀ c ∈ extra, c.isMutating = false := by
  have hone : ∀ c ∈ [StoreCall.getSections (rs.getD 0)], c.isMutating = false := by
    intro c hc; simp at hc; subst hc; rfl
  have hone2 : ∀ c ∈ [StoreCall.getSection (env.testrailSectionId.getD 0)],
      c.isMutating = false := by
    intro c hc; simp at hc; subst hc; rfl
  simp only [resolveSectionPhase, callGetSections, callGetSection]
  split
  · cases horacle : oracle (.getSections (rs.getD 0)) with
    | some msg =>
      simp only [horacle]
      exact ⟨[.getSections (rs.getD 0)], by simp [logCall], hone⟩
    | none =>
      simp only [horacle]
      rcases hes : emptySectionsStep oracle env (rs.getD 0)
          ((logCall st (StoreCall.getSections (rs.getD 0))).store.sections.filter
            (fun s => decide (s.suite_id = rs.getD 0)))
          (logCall st (StoreCall.getSections (rs.getD 0))) with ⟨r2, st2⟩
      have hst2 := emptySectionsStep_dry_state oracle env (rs.getD 0)
        ((logCall st (StoreCall.getSections (rs.getD 0))).store.sections.filter
          (fun s => decide (s.suite_id = rs.getD 0)))
        (logCall st (StoreCall.getSections (rs.getD 0))) hdry
      rw [hes] at hst2
      dsimp at hst2
      subst hst2
      rcases r2 with e | ⟨o, secs⟩
      · exact ⟨[.getSections (rs.getD 0)], by simp [logCall], hone⟩
      · dsimp only
        cases hidf : idFalsy o with
        | false =>
          simp only [hidf, Bool.false_eq_true, if_false]
          exact ⟨[.getSections (rs.getD 0)], by simp [logCall], hone⟩
        | true =>
          rw [if_pos rfl]
          rcases hfs : findSelectedSection oracle env (rs.getD 0) secs
              (logCall st (StoreCall.getSections (rs.getD 0))) with ⟨r3, st3⟩
          have hst3 := findSelectedSection_dry_state oracle env (rs.getD 0) secs
            (logCall st (StoreCall.getSections (rs.getD 0))) hdry
          rw [hfs] at hst3
          dsimp at hst3
          subst hst3
          rcases r3 with e | o3
          · exact ⟨[.getSections (rs.getD 0)], by simp [logCall], hone⟩
          · rcases o3 with - | s
            · dsimp only
              rw [if_pos hidf]
              exact ⟨[.getSections (rs.getD 0)], by simp [logCall], hone⟩
            · dsimp only
              split
              · exact ⟨[.getSections (rs.getD 0)], by simp [logCall], hone⟩
              · exact ⟨[.getSections (rs.getD 0)], by simp [logCall], hone⟩
  · split
    · cases horacle : oracle (.getSection (env.testrailSectionId.getD 0)) with
      | some msg =>
        simp only [horacle]
        exact ⟨[.getSection (env.testrailSectionId.getD 0)], by simp [logCall], hone2⟩
      | none =>
        simp only [horacle]
        cases hfind : List.find?
            (fun s => decide (s.id = env.testrailSectionId.getD 0))
            (logCall st (StoreCall.getSection (env.testrailSectionId.getD 0))).store.sections with
        | some s =>
          simp only [hfind]
          split
          · exact ⟨[.getSection (env.testrailSectionId.getD 0)], by simp [logCall], hone2⟩
          · exact ⟨[.getSection (env.testrailSectionId.getD 0)], by simp [logCall], hone2⟩
        | none =>
          simp only [hfind]
          exact ⟨[.getSection (env.testrailSectionId.getD 0)], by simp [logCall], hone2⟩
    · exact ⟨[], by simp, by intro c hc; simp at hc⟩

theorem fetchExistingCases_extra (oracle : Oracle) (d : Bool) (sid : Int)
    (so : Option Int) (st : ExecState) :
    ∃ extra, ((fetchExistingCases oracle d sid so st).2).calls = st.calls ++ extra ∧
      ∀ c ∈ extra, c.isMutating = false := by
  have hone : ∀ c ∈ [StoreCall.getCases sid (if truthyId so then so else none)],
      c.isMutating = false := by
    intro c hc; simp at hc; subst hc; rfl
  simp only [fetchExistingCases, callGetCases]
  split
  · exact ⟨[], by simp, by intro c hc; simp at hc⟩
  · cases horacle : oracle (.getCases sid (if truthyId so then so else none)) with
    | some msg =>
      simp only [horacle]
      exact ⟨[.getCases sid (if truthyId so then so else none)], by simp [logCall], hone⟩
    | none =>
      simp only [horacle]
      exact ⟨[.getCases sid (if truthyId so then so else none)], by simp [logCall], hone⟩

theorem processScenario_dry (oracle : Oracle) (ticket : JiraTicket) (sectionId : Int)
    (map : List (Str × TestRailTestCaseResponse)) (res : SyncResult)
    (st : ExecState) (sc : ParsedScenario) :
    (processScenario oracle true ticket sectionId map (res, st) sc).2 = st ∧
    (processScenario oracle true ticket sectionId map (res, st) sc).1.scenariosCreated +
      (processScenario oracle true ticket sectionId map (res, st) sc).1.scenariosUpdated =
      res.scenariosCreated + res.scenariosUpdated + 1 := by
  simp only [processScenario]
  rcases scenarioAction map ticket sectionId sc with ⟨ex, tc⟩ | tc
  · exact ⟨rfl, by dsimp; omega⟩
  · exact ⟨rfl, by dsimp; omega⟩

theorem processScenarios_dry_fold (oracle : Oracle) (ticket : JiraTicket)
    (sectionId : Int) (map : List (Str × TestRailTestCaseResponse)) :
    ∀ (scenarios : List ParsedScenario) (res : SyncResult) (st : ExecState),
      ((scenarios.foldl (processScenario oracle true ticket sectionId map)
        (res, st)).2 = st) := by
  intro scenarios
  induction scenarios with
  | nil => intro res st; rfl
  | cons sc scs ih =>
    intro res st
    rw [List.foldl_cons]
    rcases hstep : processScenario oracle true ticket sectionId map (res, st) sc
      with ⟨res2, st2⟩
    have h2 := (processScenario_dry oracle ticket sectionId map res st sc).1
    rw [hstep] at h2
    dsimp at h2
    subst h2
    exact ih res2 _

theorem processDelete_dry (oracle : Oracle) (res : SyncResult) (st : ExecState)
    (tc : TestRailTestCaseResponse) :
    processDelete oracle true (res, st) tc =
      ({ res with scenariosDeleted := res.scenariosDeleted + 1 }, st) := rfl

theorem processDeletes_dry_fold (oracle : Oracle) :
    ∀ (l : List TestRailTestCaseResponse) (res : SyncResult) (st : ExecState),
      ((l.foldl (processDelete oracle true) (res, st)).2 = st) := by
  intro l
  induction l with
  | nil => intro res st; rfl
  | cons tc tcs ih =>
    intro res st
    rw [List.foldl_cons, processDelete_dry]
    exact ih _ st

theorem runSync_dry_calls (oracle : Oracle) (env : RunEnv) (store : StoreState)
    (hdry : env.dryRun = true) :
    ∀ c ∈ ((runSync oracle env store).2).calls, c.isMutating = false := by
  obtain ⟨e1, h1, hm1⟩ := resolveSuitePhase_dry_extra oracle env ⟨store, []⟩ hdry
  rcases hp1 : resolveSuitePhase oracle env ⟨store, []⟩ with ⟨r1, st1⟩
  rw [hp1] at h1
  dsimp at h1
  have hm1' : ∀ c ∈ st1.calls, c.isMutating = false := by rw [h1]; exact hm1
  simp only [runSync, hp1]
  rcases r1 with e | rs
  · exact hm1'
  · dsimp only
    obtain ⟨e2, h2, hm2⟩ := resolveSectionPhase_dry_extra oracle env rs st1 hdry
    rcases hp2 : resolveSectionPhase oracle env rs st1 with ⟨r2, st2⟩
    rw [hp2] at h2
    dsimp at h2
    have hm2' : ∀ c ∈ st2.calls, c.isMutating = false := by
      rw [h2]; exact mem_append_nonmut hm1' hm2
    rcases r2 with e | ⟨sectionId, suiteOut⟩
    · exact hm2'
    · dsimp only
      split
      · exact hm2'
      · rw [hdry]
        obtain ⟨e3, h3, hm3⟩ := fetchExistingCases_extra oracle true sectionId suiteOut st2
        rcases hp3 : fetchExistingCases oracle true sectionId suiteOut st2 with ⟨r3, st3⟩
        rw [hp3] at h3
        dsimp at h3
        have hm3' : ∀ c ∈ st3.calls, c.isMutating = false := by
          rw [h3]; exact mem_append_nonmut hm2' hm3
        rcases r3 with e | existing
        · exact hm3'
        · dsimp only
          rcases hf1 : (parseScenarios env.ticket.description).foldl
              (processScenario oracle true env.ticket sectionId
                (buildCasesMap (managedCases env.jiraKey existing)))
              ({ emptyResult with
                  scenariosFound := (parseScenarios env.ticket.description).length }, st3)
            with ⟨res1, st4⟩
          have h4 := processScenarios_dry_fold oracle env.ticket sectionId
            (buildCasesMap (managedCases env.jiraKey existing))
            (parseScenarios env.ticket.description)
            { emptyResult with
                scenariosFound := (parseScenarios env.ticket.description).length } st3
          rw [hf1] at h4
          dsimp at h4
          subst h4
          dsimp only
          rw [processDeletes_dry_fold oracle
            (toDeleteList (managedCases env.jiraKey existing)
              (scenarioTitleSet (parseScenarios env.ticket.description))) res1 st4]
          exact hm3'

def c9env : RunEnv :=
  ⟨"PROJ-9".data, none, none, some ("Regression").data, true, some ("My Suite").data,
   true, true, ⟨"PROJ-9".data, "s".data, "d".data, "u".data⟩⟩

/-- C9 counterexample: with dry-run on, a suite name, `--create-suite`, and
neither a suite id nor a section id, the dry-run suite-creation branch
substitutes no placeholder suite id — `resolvedSuiteId` stays absent, so the
run does not continue simulating the pipeline but throws
"Either suite ID, suite name, or section ID must be provided", having issued
only the suite lookup. -/
theorem C9_counterexample :
    runSync (fun _ => none) c9env ⟨[], [], [], 50⟩ =
      (.error ("Either suite ID, suite name, or section ID must be provided").data,
       ⟨⟨[], [], [], 50⟩, [.getSuites]⟩) := by rfl

/-- C9 (amended): when dry-run is on, (1) no mutating store call (create
suite, create section, create/update/delete case) is issued anywhere in the
run; (2) each would-be case create/update still increments the corresponding
counter with the state untouched; (3) each would-be delete increments the
deleted counter with the state untouched; (4) section creation under an empty
section list substitutes the `-1` placeholder id so the preview continues;
(5) the case listing is skipped entirely under the placeholder section; but
(6) suite creation substitutes no placeholder — the dry-run branch returns
the unchanged (absent) suite id, so downstream logic cannot continue past a
missing suite (the counterexample shows the resulting throw). -/
theorem C9_amended :
    (∀ (oracle : Oracle) (env : RunEnv) (store : StoreState),
       env.dryRun = true →
       ∀ c ∈ ((runSync oracle env store).2).calls, c.isMutating = false)
    ∧ (∀ (oracle : Oracle) (ticket : JiraTicket) (sectionId : Int)
         (map : List (Str × TestRailTestCaseResponse)) (res : SyncResult)
         (st : ExecState) (sc : ParsedScenario),
        (processScenario oracle true ticket sectionId map (res, st) sc).2 = st ∧
        (processScenario oracle true ticket sectionId map (res, st) sc).1.scenariosCreated +
          (processScenario oracle true ticket sectionId map (res, st) sc).1.scenariosUpdated =
          res.scenariosCreated + res.scenariosUpdated + 1)
    ∧ (∀ (oracle : Oracle) (res : SyncResult) (st : ExecState)
         (tc : TestRailTestCaseResponse),
        processDelete oracle true (res, st) tc =
          ({ res with scenariosDeleted := res.scenariosDeleted + 1 }, st))
    ∧ (∀ (oracle : Oracle) (env : RunEnv) (rsid : Int) (st : ExecState),
        env.dryRun = true → env.createSectionIfMissing = true →
        truthyStr env.sectionName = true →
        emptySectionsStep oracle env rsid [] st = (.ok (some (-1), []), st))
    ∧ (∀ (oracle : Oracle) (suiteOut : Option Int) (st : ExecState),
        fetchExistingCases oracle true (-1) suiteOut st = (.ok [], st))
    ∧ (∀ (oracle : Oracle) (env : RunEnv) (st : ExecState),
        env.dryRun = true → env.createSuiteIfMissing = true →
        truthyStr env.suiteName = true → idFalsy env.testrailSuiteId = true →
        (findSuiteByName oracle st (env.suiteName.getD [])).1 = .ok none →
        resolveSuitePhase oracle env st =
          (.ok env.testrailSuiteId, (findSuiteByName oracle st (env.suiteName.getD [])).2)) := by
  refine ⟨runSync_dry_calls, processScenario_dry, processDelete_dry, ?_, ?_, ?_⟩
  · intro oracle env rsid st hdry hcim hts
    simp [emptySectionsStep, hdry, hcim, hts]
  · intro oracle so st
    simp [fetchExistingCases]
  · intro oracle env st hdry hcreate hts hfalsy hfind
    rcases hfs : findSuiteByName oracle st (env.suiteName.getD []) with ⟨r, st2⟩
    rw [hfs] at hfind
    dsimp at hfind
    subst hfind
    simp only [resolveSuitePhase, hfs, hdry, hcreate, hts, hfalsy, and_self, if_true]

def c9wenv : RunEnv :=
  ⟨"PROJ-9".data, some 5, none, some ("Regression").data, true, none, false, true,
   ⟨"PROJ-9".data, "s".data, [], "u".data⟩⟩

/-- Witness for the amended C9, instantiating every conjunct: a concrete
dry-run issues only the non-mutating section listing; a concrete dry
create ticks the created counter and a concrete dry delete the deleted
counter, both leaving the state alone; the empty-section-list step yields
the `-1` placeholder; the case listing under `-1` is skipped; and the
dry-run suite branch returns the absent suite id unchanged. -/
theorem C9_amended_witness :
    (StoreCall.isMutating (.getSections 5) = false)
    ∧ ((processScenario (fun _ => none) true ⟨"PROJ-9".data, [], [], []⟩ 5 []
          (emptyResult, ⟨⟨[], [], [], 1⟩, []⟩) ⟨"A".data, ["x".data], "x".data⟩).2 =
            ⟨⟨[], [], [], 1⟩, []⟩
        ∧ (processScenario (fun _ => none) true ⟨"PROJ-9".data, [], [], []⟩ 5 []
            (emptyResult, ⟨⟨[], [], [], 1⟩, []⟩) ⟨"A".data, ["x".data], "x".data⟩).1.scenariosCreated +
          (processScenario (fun _ => none) true ⟨"PROJ-9".data, [], [], []⟩ 5 []
            (emptyResult, ⟨⟨[], [], [], 1⟩, []⟩) ⟨"A".data, ["x".data], "x".data⟩).1.scenariosUpdated =
          emptyResult.scenariosCreated + emptyResult.scenariosUpdated + 1)
    ∧ (processDelete (fun _ => none) true (emptyResult, ⟨⟨[], [], [], 1⟩, []⟩) ⟨7, "t".data, none⟩ =
        ({ emptyResult with scenariosDeleted := 1 }, ⟨⟨[], [], [], 1⟩, []⟩))
    ∧ (emptySectionsStep (fun _ => none) c9wenv 5 [] ⟨⟨[], [], [], 1⟩, []⟩ =
        (.ok (some (-1), []), ⟨⟨[], [], [], 1⟩, []⟩))
    ∧ (fetchExistingCases (fun _ => none) true (-1) (some 5) ⟨⟨[], [], [], 1⟩, []⟩ =
        (.ok [], ⟨⟨[], [], [], 1⟩, []⟩))
    ∧ (resolveSuitePhase (fun _ => none) c9env ⟨⟨[], [], [], 50⟩, []⟩ =
        (.ok none,
         (findSuiteByName (fun _ => none) ⟨⟨[], [], [], 50⟩, []⟩ ("My Suite").data).2)) :=
  ⟨C9_amended.1 (fun _ => none) c9wenv ⟨[], [], [], 1⟩ rfl (.getSections 5) (by decide),
   C9_amended.2.1 (fun _ => none) ⟨"PROJ-9".data, [], [], []⟩ 5 []
     emptyResult ⟨⟨[], [], [], 1⟩, []⟩ ⟨"A".data, ["x".data], "x".data⟩,
   C9_amended.2.2.1 (fun _ => none) emptyResult ⟨⟨[], [], [], 1⟩, []⟩ ⟨7, "t".data, none⟩,
   C9_amended.2.2.2.1 (fun _ => none) c9wenv 5 ⟨⟨[], [], [], 1⟩, []⟩ rfl rfl (by decide),
   C9_amended.2.2.2.2.1 (fun _ => none) (some 5) ⟨⟨[], [], [], 1⟩, []⟩,
   C9_amended.2.2.2.2.2 (fun _ => none) c9env ⟨⟨[], [], [], 50⟩, []⟩ rfl rfl
     (by decide) (by decide) rfl⟩

end JiraToTestRail
